import Mathlib

/-!
Goal selection heuristics of the Arachne method (`src/src/heuristic.c`).

A shallow embedding of `heuristic.c` and of the one line of
`src/gui/src/switches.c` that sets the default heuristic.

Modelling conventions.

* A C pointer that may be `NULL` is an `Option`; the generic linked list `List`
  of the C code is a Lean `List`, `NULL` being `[]` and a list position being
  the suffix that starts there.
* `float` values are rationals (`ℚ`). `toFloat` rounds a rational to the nearest
  `float` (IEEE 754 binary32, ties to even). The division of
  `termBindConsequences` is rounded with it, and `computeGoalWeightFloat` is
  `computeGoalWeight` with every `float` operation rounded; `computeGoalWeight`
  itself adds the slots exactly, which is enough wherever only the order of
  the weights or a value without rounding error matters. Infinities and NaN
  are outside the model.
* `int` values are `Int` (or `Nat` for counters that only ever count up);
  no arithmetic in this file can leave the 32-bit range on the inputs the
  search engine produces.
* `error (...)` prints a message and terminates the program: a function that
  may call it returns `Except Error _`.
* The term algebra, the hide-level classifier and the enumeration constants of
  the headers are external to `heuristic.c`; they are the fields of `Env`.
* `rand ()` is an extra argument: the value the call returns.
* What the code prints to the proof output is returned as a list of `Out`
  items next to the result.
-/

namespace Scyther

/-- The fields of `struct binding` read by `heuristic.c`. -/
structure binding (Term : Type) where
  done : Bool
  blocked : Bool
  term : Term
  level : Int
deriving DecidableEq, Repr

/-- The C type `Binding` is a pointer to a `struct binding`; `none` is `NULL`. -/
abbrev Binding (Term : Type) := Option (binding Term)

/-- The C type `Termlist`: a linked list of terms. -/
abbrev Termlist (Term : Type) := List Term

/-- One event of a role definition: the fields `type` and `message` of
`struct roledef`; the `next` pointer is the tail of the list holding it. -/
structure roledef (Term : Type) where
  type : Int
  message : Term
deriving DecidableEq, Repr

/-- The C type `Roledef`: a position in the linked list of events. -/
abbrev Roledef (Term : Type) := List (roledef Term)

/-- The fields of `struct run` read by `heuristic.c`. -/
structure run (Term : Type) where
  start : Roledef Term
  height : Nat
deriving DecidableEq, Repr

/-- The fields of `struct system` read by `heuristic.c`. The array `runs` has
`maxruns` entries. -/
structure System (Term : Type) where
  bindings : List (Binding Term)
  runs : List (run Term)
deriving DecidableEq, Repr

/-- The field `maxruns` of `struct system`: the number of entries of `runs`. -/
def System.maxruns {Term : Type} (sys : System Term) : Nat := sys.runs.length

/-- The two fields of the global `switches` read by `heuristic.c`. -/
structure Switches where
  heuristic : Int
  output : Int
deriving DecidableEq, Repr

/-- The ways in which a call can terminate the program. -/
inductive Error where
  /-- The call `error ("--heuristic mode %i is illegal", switches.heuristic)`. -/
  | illegalHeuristicMode (mode : Int)
  /-- The call `error ("Random chooser selected a NULL goal.")`. -/
  | randomNullGoal
  /-- The call `error ("Unknown value (<0) for --goal-select.")`. -/
  | unknownGoalSelect
  /-- A `NULL` pointer is dereferenced (no call of `error`). -/
  | nullDereference
deriving DecidableEq, Repr

/-- One item written to the proof output. -/
inductive Out (Term : Type) where
  /-- The call `indentPrint ()`. -/
  | indent
  /-- The call `eprintf` of a literal string. -/
  | text (s : String)
  /-- The call `termPrint (t)`. -/
  | term (t : Term)
  /-- The call `eprintf ("<%.2f>", w)`. -/
  | weight (w : ℚ)
deriving DecidableEq, Repr

/-- The functions and constants that `heuristic.c` takes from the rest of the
program (`term.h`, `termlist.h`, `hidelevel.h`, `role.h`, `switches.h`). -/
structure Env (Term : Type) where
  termlistAddVariables : Termlist Term → Term → Termlist Term
  termSubTerm : Term → Term → Bool
  inTermlist : Termlist Term → Term → Bool
  deVar : Term → Term
  realTermVariable : Term → Bool
  stype : Term → Termlist Term
  TERM_Nonce : Term
  isTermVariable : Term → Bool
  term_constrain_level : Term → ℚ
  hidelevelFlag : System Term → Term → Nat
  HLFLAG_NONE : Nat
  HLFLAG_KNOW : Nat
  HLFLAG_PROT : Nat
  READ : Int
  SEND : Int
  PROOF : Int

/-- The constant `FLT_MAX` of `float.h`: `(2 - 2^(-23)) * 2^127`. -/
def FLT_MAX : ℚ := 340282346638528859811704183484516925440

/-- Round a rational to the nearest integer, a tie to the even one. -/
def roundNearestEven (x : ℚ) : ℤ :=
  let f := ⌊x⌋
  let r := x - f
  if r < 1 / 2 then f else if 1 / 2 < r then f + 1 else if f % 2 = 0 then f else f + 1

/-- The `float` (IEEE 754 binary32) nearest to a rational, a tie to the one
with an even significand: with `e` the exponent of `x`, at least -126 (below it
the values are subnormal), the result is a multiple of `2 ^ (e - 23)`. The
exponent is not bounded above: a result of magnitude `2 ^ 128` or more, which
is an infinity in C, is outside the model. -/
def toFloat (x : ℚ) : ℚ :=
  if x = 0 then 0
  else
    let e := max (Int.log 2 |x|) (-126)
    let q : ℚ := 2 ^ (e - 23)
    (roundNearestEven (x / q) : ℚ) * q

section Embedding

variable {Term : Type}

/-- Check whether a binding (goal) is selectable. -/
def is_goal_selectable (b : Binding Term) : Bool :=
  match b with
  | some b => if !b.blocked && !b.done then true else false
  | none => false

/-- The loop of `count_selectable_goals`. -/
def count_selectable_goals.loop : List (Binding Term) → Nat → Nat
  | [], n => n
  | b :: next, n =>
    count_selectable_goals.loop next (if is_goal_selectable b then n + 1 else n)

/-- Count selectable goals. -/
def count_selectable_goals (sys : System Term) : Nat :=
  count_selectable_goals.loop sys.bindings 0

/-- Return first selectable goal in the list: the list position is either
`NULL` or holds a selectable goal. -/
def first_selectable_goal : List (Binding Term) → List (Binding Term)
  | [] => []
  | b :: next =>
    if !is_goal_selectable b then first_selectable_goal next else b :: next

/-- The innermost loop of `termBindConsequences`: scan the open variables for
one that occurs in the event `rd`. -/
def termBindConsequences.scanVariables (E : Env Term) (rd : roledef Term) :
    Termlist Term → Int → Int
  | [], affectedCount => affectedCount
  | term :: next, affectedCount =>
    if (rd.type = E.READ || rd.type = E.SEND) && E.termSubTerm rd.message term then
      affectedCount + 1
    else
      termBindConsequences.scanVariables E rd next affectedCount

/-- The loop of `termBindConsequences` over the events of one run; the second
argument is `height - step`, the pair is `(totalCount, affectedCount)`. -/
def termBindConsequences.scanRun (E : Env Term) (openVariables : Termlist Term) :
    Roledef Term → Nat → Int × Int → Except Error (Int × Int)
  | _, 0, counts => .ok counts
  | [], _ + 1, _ => .error .nullDereference
  | rd :: next, k + 1, (totalCount, affectedCount) =>
    termBindConsequences.scanRun E openVariables next k
      (totalCount + 1, termBindConsequences.scanVariables E rd openVariables affectedCount)

/-- The loop of `termBindConsequences` over the runs. -/
def termBindConsequences.scanRuns (E : Env Term) (openVariables : Termlist Term) :
    List (run Term) → Int × Int → Except Error (Int × Int)
  | [], counts => .ok counts
  | r :: rest, counts =>
    match termBindConsequences.scanRun E openVariables r.start r.height counts with
    | .error e => .error e
    | .ok counts1 => termBindConsequences.scanRuns E openVariables rest counts1

/-- Give an indication of the amount of consequences binding a term has.
0: maximum consequences, 1: no consequences. In
`(float) (totalCount - affectedCount) / totalCount` both operands are converted
to `float` and the quotient is a `float`. -/
def termBindConsequences (E : Env Term) (sys : System Term) (t : Term) :
    Except Error ℚ :=
  match E.termlistAddVariables [] t with
  | [] => .ok 1
  | v :: vs =>
    match termBindConsequences.scanRuns E (v :: vs) sys.runs (0, 0) with
    | .error e => .error e
    | .ok (totalCount, affectedCount) =>
      if totalCount > 0 then
        .ok (toFloat (toFloat ((totalCount - affectedCount : Int) : ℚ) /
          toFloat ((totalCount : Int) : ℚ)))
      else
        .ok 1

/-- Determine whether a term is an open nonce variable. -/
def isOpenNonceVar (E : Env Term) (t : Term) : Bool :=
  let t := E.deVar t
  if E.realTermVariable t then E.inTermlist (E.stype t) E.TERM_Nonce else false

/-- The loop of `count_open_variables`. -/
def count_open_variables.loop (E : Env Term) (t : Term) : Termlist Term → Int → Int
  | [], n => n
  | _ :: next, n =>
    count_open_variables.loop E t next
      (if !E.inTermlist next t then (if isOpenNonceVar E t then n + 1 else n) else n)

/-- Count unique open variables in term. The list returned by
`termlistAddVariables (tl, t)` is not assigned: `tl` is still `NULL` when the
loop starts. -/
def count_open_variables (E : Env Term) (t : Term) : Int :=
  let tl : Termlist Term := []
  let _unused := E.termlistAddVariables tl t
  count_open_variables.loop E t tl 0

/-- Athena-like factor; `onv / enough` is the division of two `int`s. -/
def term_noncevariables_level (E : Env Term) (t : Term) : ℚ :=
  let enough : Int := 2
  let onv := count_open_variables E t
  if onv ≥ enough then 0 else ((1 - Int.tdiv onv enough : Int) : ℚ)

/-- Determine weight based on hidelevel. -/
def weighHidelevel (E : Env Term) (sys : System Term) (t : Term) (massknow massprot : ℚ) : ℚ :=
  let flag := E.hidelevelFlag sys t
  if flag = E.HLFLAG_NONE then 0
  else if flag = E.HLFLAG_KNOW then massknow
  else if flag = E.HLFLAG_PROT then massprot
  else 1

/-- The function `newkeylevel` (weighted). -/
def newkeylevel (level : Int) : Int :=
  if level = 1 then 0 else 1

/-- The local variables `w` and `smode` of `computeGoalWeight`, which its
nested function `erode` updates. -/
structure ErodeState where
  w : ℚ
  smode : Int
deriving DecidableEq, Repr

/-- The nested function `erode` of `computeGoalWeight`. For an `int` in two's
complement `smode & 1` is the remainder `smode % 2` of the floor division, and
`smode / 2` truncates towards zero. -/
def computeGoalWeight.erode (deltaw : ℚ) (st : ErodeState) : ErodeState :=
  { w := if st.smode % 2 ≠ 0 then st.w + deltaw else st.w
    smode := Int.tdiv st.smode 2 }

/-- Determine the weight of a given goal. -/
def computeGoalWeight (E : Env Term) (sw : Switches) (sys : System Term)
    (b : binding Term) : Except Error ℚ :=
  let st : ErodeState := { w := 0, smode := sw.heuristic }
  let t := b.term
  let st := computeGoalWeight.erode (2 * weighHidelevel E sys t (1 / 2) (1 / 2)) st
  let st := computeGoalWeight.erode ((1 / 2) * (1 - b.level)) st
  let st := computeGoalWeight.erode (E.term_constrain_level t) st
  let st := computeGoalWeight.erode (term_noncevariables_level E t) st
  if st.smode > 0 then .error (.illegalHeuristicMode sw.heuristic) else .ok st.w

/-- The nested function `erode` of `computeGoalWeight` with the addition
`w + deltaw` of two `float`s rounded to `float`. -/
def computeGoalWeightFloat.erode (deltaw : ℚ) (st : ErodeState) : ErodeState :=
  { w := if st.smode % 2 ≠ 0 then toFloat (st.w + deltaw) else st.w
    smode := Int.tdiv st.smode 2 }

/-- The function `computeGoalWeight` with every `float` operation rounded: the
argument of each call of `erode` is a `float` (the product `2 * weighHidelevel`
of `float`s, the `double` product `0.5 * (1 - b->level)` converted to the
`float` parameter, the `float` results of `term_constrain_level` and
`term_noncevariables_level`), and so is each sum `w + deltaw`. -/
def computeGoalWeightFloat (E : Env Term) (sw : Switches) (sys : System Term)
    (b : binding Term) : Except Error ℚ :=
  let st : ErodeState := { w := 0, smode := sw.heuristic }
  let t := b.term
  let st := computeGoalWeightFloat.erode
    (toFloat (2 * weighHidelevel E sys t (toFloat (1 / 2)) (toFloat (1 / 2)))) st
  let st := computeGoalWeightFloat.erode (toFloat ((1 / 2) * (1 - b.level))) st
  let st := computeGoalWeightFloat.erode (toFloat (E.term_constrain_level t)) st
  let st := computeGoalWeightFloat.erode (toFloat (term_noncevariables_level E t)) st
  if st.smode > 0 then .error (.illegalHeuristicMode sw.heuristic) else .ok st.w

/-- The loop of `select_goal_masked`; the arguments after the list position
are `best_weight`, `best` and the output written so far. -/
def select_goal_masked.loop (E : Env Term) (sw : Switches) (sys : System Term) :
    List (Binding Term) → ℚ → Binding Term → List (Out Term) →
    Except Error (Binding Term) × List (Out Term)
  | [], _, best, out => (.ok best, out)
  | d :: next, best_weight, best, out =>
    if is_goal_selectable d then
      match d with
      | none => select_goal_masked.loop E sw sys next best_weight best out
      | some b =>
        if !E.isTermVariable b.term then
          match computeGoalWeight E sw sys b with
          | .error e => (.error e, out)
          | .ok w =>
            let out1 :=
              if sw.output = E.PROOF ∧ best.isSome then out ++ [Out.text ", "] else out
            let out2 :=
              if w ≤ best_weight ∧ sw.output = E.PROOF then out1 ++ [Out.text "*"] else out1
            let out3 :=
              if sw.output = E.PROOF then out2 ++ [Out.term b.term, Out.weight w] else out2
            if w ≤ best_weight then
              select_goal_masked.loop E sw sys next w (some b) out3
            else
              select_goal_masked.loop E sw sys next best_weight best out3
        else
          select_goal_masked.loop E sw sys next best_weight best out
    else
      select_goal_masked.loop E sw sys next best_weight best out

/-- Goal selection: selects the most constrained goal. -/
def select_goal_masked (E : Env Term) (sw : Switches) (sys : System Term) :
    Except Error (Binding Term) × List (Out Term) :=
  let out0 : List (Out Term) :=
    if sw.output = E.PROOF then
      [Out.indent, Out.text "Listing open goals that might be chosen: "]
    else []
  match select_goal_masked.loop E sw sys sys.bindings FLT_MAX none out0 with
  | (.error e, out) => (.error e, out)
  | (.ok best, out) =>
    if sw.output = E.PROOF then
      (.ok best, (if best.isNone then out ++ [Out.text "none"] else out) ++ [Out.text "\n"])
    else
      (.ok best, out)

/-- The loop of `select_goal_random`; the first argument is `choice + 1`, the
number of times the test `choice >= 0` still succeeds. -/
def select_goal_random.loop : Nat → List (Binding Term) → Except Error (List (Binding Term))
  | 0, bl => .ok bl
  | k + 1, bl =>
    match first_selectable_goal bl with
    | [] => .error .randomNullGoal
    | d :: next => select_goal_random.loop k (d :: next)

/-- Goal selection special case -1: random. The argument `r` is the value
returned by `rand ()`. -/
def select_goal_random (sys : System Term) (r : Nat) : Except Error (Binding Term) :=
  let n := count_selectable_goals sys
  if n > 0 then
    let choice := r % n
    match select_goal_random.loop (choice + 1) sys.bindings with
    | .error e => .error e
    | .ok [] => .error .nullDereference
    | .ok (d :: _) => .ok d
  else
    .ok none

/-- Goal selection function, generic. -/
def select_goal (E : Env Term) (sw : Switches) (sys : System Term) (r : Nat) :
    Except Error (Binding Term) × List (Out Term) :=
  if sw.heuristic ≥ 0 then
    select_goal_masked E sw sys
  else if sw.heuristic = -1 then
    (select_goal_random sys r, [])
  else
    (.error .unknownGoalSelect, [])

/-- A binding that `select_goal_masked` weighs: selectable, and its term is not
a variable. -/
def IsCandidate (E : Env Term) (b : binding Term) : Prop :=
  is_goal_selectable (some b) = true ∧ E.isTermVariable b.term = false

end Embedding

/-- The default goal selection method set by `switchesInit` in `switches.c`. -/
def switchesInit_heuristic : Int := 162

/-- Equality of results is decidable when equality of errors and values is. -/
instance instDecidableEqExcept {ε α : Type} [DecidableEq ε] [DecidableEq α] :
    DecidableEq (Except ε α)
  | .ok a, .ok b =>
    if h : a = b then isTrue (congrArg Except.ok h)
    else isFalse (fun h2 => h (Except.ok.inj h2))
  | .error a, .error b =>
    if h : a = b then isTrue (congrArg Except.error h)
    else isFalse (fun h2 => h (Except.error.inj h2))
  | .ok _, .error _ => isFalse (fun h => Except.noConfusion h)
  | .error _, .ok _ => isFalse (fun h => Except.noConfusion h)

/-! ## A small term algebra for concrete inputs -/

/-- Terms of the examples: variables and constants, each with a number. -/
inductive DemoTerm where
  | var (n : Nat)
  | const (n : Nat)
deriving DecidableEq, Repr

/-- An environment over `DemoTerm`: a variable is a term `var n`, every term is
classified `HLFLAG_KNOW`, and the constrain level is `1/2` for a constant. -/
def demoEnv : Env DemoTerm where
  termlistAddVariables := fun tl t =>
    match t with
    | .var _ => if t ∈ tl then tl else tl ++ [t]
    | .const _ => tl
  termSubTerm := fun t s => decide (t = s)
  inTermlist := fun tl t => decide (t ∈ tl)
  deVar := fun t => t
  realTermVariable := fun t =>
    match t with
    | .var _ => true
    | .const _ => false
  stype := fun _ => [.const 0]
  TERM_Nonce := .const 0
  isTermVariable := fun t =>
    match t with
    | .var _ => true
    | .const _ => false
  term_constrain_level := fun t =>
    match t with
    | .var _ => 1
    | .const _ => 1 / 2
  hidelevelFlag := fun _ _ => 1
  HLFLAG_NONE := 0
  HLFLAG_KNOW := 1
  HLFLAG_PROT := 2
  READ := 0
  SEND := 1
  PROOF := 5

/-- A selectable binding of the variable `var 0`, level `0`. -/
def demoB0 : binding DemoTerm := { done := false, blocked := false, term := .var 0, level := 0 }

/-- A selectable binding of the constant `const 1`, level `1`. -/
def demoB1 : binding DemoTerm := { done := false, blocked := false, term := .const 1, level := 1 }

/-- A selectable binding of the constant `const 2`, level `1`. -/
def demoB2 : binding DemoTerm := { done := false, blocked := false, term := .const 2, level := 1 }

/-- A selectable binding of the constant `const 3`, level `0`. -/
def demoB3 : binding DemoTerm := { done := false, blocked := false, term := .const 3, level := 0 }

/-- A blocked binding of the constant `const 4`. -/
def demoBlocked : binding DemoTerm :=
  { done := false, blocked := true, term := .const 4, level := 1 }

/-- A binding of the constant `const 5` that is done. -/
def demoDone : binding DemoTerm := { done := true, blocked := false, term := .const 5, level := 1 }

/-- A system whose binding set is the given list and that has no runs. -/
def demoSys (bindings : List (Binding DemoTerm)) : System DemoTerm :=
  { bindings := bindings, runs := [] }

/-! ## The sum of the enabled slots in float arithmetic -/

/-- The sum of the enabled feature slots accumulated in `float` arithmetic,
lowest bit first: starting from 0, the slot `i` is added when the binary digit
`i` of the mask `m` is 1, and each sum is rounded to `float`. -/
def floatSlotSum (m : Int) (s0 s1 s2 s3 : ℚ) : ℚ :=
  let w : ℚ := 0
  let w := if m % 2 = 1 then toFloat (w + s0) else w
  let w := if m / 2 % 2 = 1 then toFloat (w + s1) else w
  let w := if m / 4 % 2 = 1 then toFloat (w + s2) else w
  if m / 8 % 2 = 1 then toFloat (w + s3) else w

/-- The environment `demoEnv` with the constrain level of every term set to
11184811/33554432, the `float` nearest to 1/3. -/
def thirdEnv : Env DemoTerm :=
  { demoEnv with term_constrain_level := fun _ => 11184811 / 33554432 }

/-! ## The trace-impact metric in the words of the specification -/

section TraceSpec

variable {Term : Type}

/-- The events of a run up to its height. -/
def committedEvents (r : run Term) : List (roledef Term) := r.start.take r.height

/-- An event is affected by the variables `V` iff it is a read or send event
whose message contains at least one variable of `V`. -/
def eventAffected (E : Env Term) (V : Termlist Term) (rd : roledef Term) : Bool :=
  (rd.type = E.READ || rd.type = E.SEND) && V.any (fun v => E.termSubTerm rd.message v)

/-- The number of events of all runs, each run up to its height. -/
def traceTotal (sys : System Term) : Nat :=
  (sys.runs.map (fun r => (committedEvents r).length)).sum

/-- The number of affected events among the events of all runs, each run up to
its height. -/
def traceAffected (E : Env Term) (V : Termlist Term) (sys : System Term) : Nat :=
  (sys.runs.map (fun r => ((committedEvents r).filter (eventAffected E V)).length)).sum

/-- Every run has at least `height` events: the walk of `termBindConsequences`
along a run never meets the end of the list. -/
def RunsWellFormed (sys : System Term) : Prop :=
  ∀ r, r ∈ sys.runs → r.height ≤ r.start.length

end TraceSpec

/-! ## A term algebra with tuples, for terms that hold several variables -/

/-- Terms of the examples with tuples: variables, constants and pairs. -/
inductive PairTerm where
  | var (n : Nat)
  | const (n : Nat)
  | tuple (a b : PairTerm)
deriving DecidableEq, Repr

/-- Add the variables of a term to a list that holds each variable once. -/
def PairTerm.addVariables : Termlist PairTerm → PairTerm → Termlist PairTerm
  | tl, .var n => if PairTerm.var n ∈ tl then tl else tl ++ [PairTerm.var n]
  | tl, .const _ => tl
  | tl, .tuple a b => PairTerm.addVariables (PairTerm.addVariables tl a) b

/-- Whether the second term occurs in the first. -/
def PairTerm.subTerm : PairTerm → PairTerm → Bool
  | .tuple a b, s =>
    decide (PairTerm.tuple a b = s) || PairTerm.subTerm a s || PairTerm.subTerm b s
  | .var n, s => decide (PairTerm.var n = s)
  | .const n, s => decide (PairTerm.const n = s)

/-- An environment over `PairTerm`: every variable is open and of type nonce
(`const 0` stands for `TERM_Nonce`), every term is classified `HLFLAG_NONE`. -/
def pairEnv : Env PairTerm where
  termlistAddVariables := PairTerm.addVariables
  termSubTerm := PairTerm.subTerm
  inTermlist := fun tl t => decide (t ∈ tl)
  deVar := fun t => t
  realTermVariable := fun t =>
    match t with
    | .var _ => true
    | _ => false
  stype := fun _ => [.const 0]
  TERM_Nonce := .const 0
  isTermVariable := fun t =>
    match t with
    | .var _ => true
    | _ => false
  term_constrain_level := fun _ => 1 / 2
  hidelevelFlag := fun _ _ => 0
  HLFLAG_NONE := 0
  HLFLAG_KNOW := 1
  HLFLAG_PROT := 2
  READ := 0
  SEND := 1
  PROOF := 5

/-- An environment over `DemoTerm` in which the hide-level flag of the constant
`const n` is `n` (and 7 for a variable). -/
def flagEnv : Env DemoTerm :=
  { demoEnv with
    hidelevelFlag := fun _ t =>
      match t with
      | .const n => n
      | .var _ => 7 }

/-- A system with two runs: one of height 2 with a send of `var 0` (type 1), a
claim (type 2) of `var 0` and one more event beyond the height, and one of
height 1 with a read (type 0) of `const 1`. -/
def demoTrace : System DemoTerm :=
  { bindings := []
    runs :=
      [ { start := [{ type := 1, message := .var 0 }, { type := 2, message := .var 0 },
                    { type := 0, message := .var 0 }],
          height := 2 },
        { start := [{ type := 0, message := .const 1 }], height := 1 } ] }

/-- The system `demoTrace` with every height set to 0. -/
def demoTraceZero : System DemoTerm :=
  { bindings := []
    runs := demoTrace.runs.map (fun r => { r with height := 0 }) }

/-! ## The nonce-variable metric as a function of the count -/

/-- The body of `term_noncevariables_level` after `onv` has been computed, as
a function of `onv`: `enough` is 2 and `onv / enough` is the division of two
`int`s. -/
def term_noncevariables_level.ofCount (onv : Int) : ℚ :=
  let enough : Int := 2
  if onv ≥ enough then 0 else ((1 - Int.tdiv onv enough : Int) : ℚ)

/-! ## The masked loop, one step at a time -/

section Steps

variable {Term : Type}

theorem is_goal_selectable_some (b : binding Term) :
    is_goal_selectable (some b) = true ↔ b.blocked = false ∧ b.done = false := by
  cases hb : b.blocked <;> cases hd : b.done <;> simp [is_goal_selectable, hb, hd]

theorem masked_loop_none (E : Env Term) (sw : Switches) (sys : System Term)
    (next : List (Binding Term)) (bw : ℚ) (best : Binding Term) (out : List (Out Term)) :
    select_goal_masked.loop E sw sys (none :: next) bw best out =
      select_goal_masked.loop E sw sys next bw best out := by
  simp [select_goal_masked.loop, is_goal_selectable]

theorem masked_loop_skip (E : Env Term) (sw : Switches) (sys : System Term)
    (b : binding Term) (h : ¬ IsCandidate E b)
    (next : List (Binding Term)) (bw : ℚ) (best : Binding Term) (out : List (Out Term)) :
    select_goal_masked.loop E sw sys (some b :: next) bw best out =
      select_goal_masked.loop E sw sys next bw best out := by
  unfold IsCandidate at h
  rw [select_goal_masked.loop]
  by_cases hs : is_goal_selectable (some b) = true
  · have hv : E.isTermVariable b.term = true := by
      cases hv : E.isTermVariable b.term
      · exact absurd ⟨hs, hv⟩ h
      · rfl
    simp [hs, hv]
  · simp [hs]

theorem masked_loop_error (E : Env Term) (sw : Switches) (sys : System Term)
    (b : binding Term) (h : IsCandidate E b) (e : Error)
    (he : computeGoalWeight E sw sys b = .error e)
    (next : List (Binding Term)) (bw : ℚ) (best : Binding Term) (out : List (Out Term)) :
    (select_goal_masked.loop E sw sys (some b :: next) bw best out).1 = .error e := by
  rw [select_goal_masked.loop]
  simp [h.1, h.2, he]

theorem masked_loop_take (E : Env Term) (sw : Switches) (sys : System Term)
    (b : binding Term) (h : IsCandidate E b) (w : ℚ)
    (hw : computeGoalWeight E sw sys b = .ok w)
    (next : List (Binding Term)) (bw : ℚ) (hle : w ≤ bw) (best : Binding Term)
    (out : List (Out Term)) :
    ∃ out1, select_goal_masked.loop E sw sys (some b :: next) bw best out =
      select_goal_masked.loop E sw sys next w (some b) out1 := by
  rw [select_goal_masked.loop]
  simp only [h.1, h.2, hw, hle, if_true, Bool.not_false]
  exact ⟨_, rfl⟩

theorem masked_loop_keep (E : Env Term) (sw : Switches) (sys : System Term)
    (b : binding Term) (h : IsCandidate E b) (w : ℚ)
    (hw : computeGoalWeight E sw sys b = .ok w)
    (next : List (Binding Term)) (bw : ℚ) (hgt : bw < w) (best : Binding Term)
    (out : List (Out Term)) :
    ∃ out1, select_goal_masked.loop E sw sys (some b :: next) bw best out =
      select_goal_masked.loop E sw sys next bw best out1 := by
  rw [select_goal_masked.loop]
  simp only [h.1, h.2, hw, not_le.mpr hgt, if_true, if_false, Bool.not_false]
  exact ⟨_, rfl⟩

theorem select_goal_masked_fst (E : Env Term) (sw : Switches) (sys : System Term) :
    (select_goal_masked E sw sys).1 =
      (select_goal_masked.loop E sw sys sys.bindings FLT_MAX none
        (if sw.output = E.PROOF then
          [Out.indent, Out.text "Listing open goals that might be chosen: "]
        else [])).1 := by
  unfold select_goal_masked
  simp only []
  split
  · next e out heq => rw [heq]
  · next best out heq =>
    rw [heq]
    split <;> rfl

theorem masked_loop_no_candidate (E : Env Term) (sw : Switches) (sys : System Term) :
    ∀ (l : List (Binding Term)) (bw : ℚ) (best : Binding Term) (out : List (Out Term)),
      (∀ c, some c ∈ l → ¬ IsCandidate E c) →
      select_goal_masked.loop E sw sys l bw best out = (.ok best, out) := by
  intro l
  induction l with
  | nil => intro bw best out _; rfl
  | cons d next ih =>
    intro bw best out h
    have hnext : ∀ c, some c ∈ next → ¬ IsCandidate E c :=
      fun c hc => h c (List.mem_cons_of_mem _ hc)
    cases d with
    | none => rw [masked_loop_none]; exact ih bw best out hnext
    | some b =>
      rw [masked_loop_skip E sw sys b (h b (List.mem_cons_self _ _))]
      exact ih bw best out hnext

theorem masked_loop_error_of_candidate (E : Env Term) (sw : Switches) (sys : System Term)
    (e : Error) (he : ∀ b, computeGoalWeight E sw sys b = .error e) :
    ∀ (l : List (Binding Term)) (bw : ℚ) (best : Binding Term) (out : List (Out Term)),
      (∃ c, some c ∈ l ∧ IsCandidate E c) →
      (select_goal_masked.loop E sw sys l bw best out).1 = .error e := by
  intro l
  induction l with
  | nil => intro bw best out h; obtain ⟨c, hc, _⟩ := h; simp at hc
  | cons d next ih =>
    intro bw best out h
    obtain ⟨c, hc, hcand⟩ := h
    cases d with
    | none =>
      rw [masked_loop_none]
      refine ih bw best out ⟨c, ?_, hcand⟩
      simpa using hc
    | some b =>
      by_cases hb : IsCandidate E b
      · exact masked_loop_error E sw sys b hb e (he b) next bw best out
      · rw [masked_loop_skip E sw sys b hb]
        refine ih bw best out ⟨c, ?_, hcand⟩
        rcases List.mem_cons.mp hc with h1 | h1
        · exact absurd hcand (by cases h1; exact hb)
        · exact h1

/-- The loop invariant of `select_goal_masked` when every weight is computed
without error: the result is either the incoming best (no candidate of the list
is at or below the incoming best weight), or the last candidate of the list
whose weight is at most the incoming weight and at most every other candidate
weight of the list. -/
theorem masked_loop_spec (E : Env Term) (sw : Switches) (sys : System Term)
    (W : binding Term → ℚ) (hW : ∀ b, computeGoalWeight E sw sys b = .ok (W b)) :
    ∀ (l : List (Binding Term)) (bw : ℚ) (best : Binding Term) (out : List (Out Term)),
      ∃ r, (select_goal_masked.loop E sw sys l bw best out).1 = .ok r ∧
        ((r = best ∧ ∀ c, some c ∈ l → IsCandidate E c → bw < W c) ∨
         (∃ pre b post, r = some b ∧ l = pre ++ some b :: post ∧ IsCandidate E b ∧
            W b ≤ bw ∧ (∀ c, some c ∈ pre → IsCandidate E c → W b ≤ W c) ∧
            (∀ c, some c ∈ post → IsCandidate E c → W b < W c))) := by
  intro l
  induction l with
  | nil =>
    intro bw best out
    exact ⟨best, rfl, Or.inl ⟨rfl, fun c hc => by simp at hc⟩⟩
  | cons d next ih =>
    intro bw best out
    cases d with
    | none =>
      rw [masked_loop_none]
      obtain ⟨r, hr, hcase⟩ := ih bw best out
      refine ⟨r, hr, ?_⟩
      rcases hcase with ⟨h1, h2⟩ | ⟨pre, b, post, h1, h2, h3, h4, h5, h6⟩
      · exact Or.inl ⟨h1, fun c hc => h2 c (by simpa using hc)⟩
      · refine Or.inr ⟨none :: pre, b, post, h1, by simp [h2], h3, h4, ?_, h6⟩
        intro c hc
        exact h5 c (by simpa using hc)
    | some a =>
      by_cases ha : IsCandidate E a
      · by_cases hle : W a ≤ bw
        · obtain ⟨out1, hstep⟩ := masked_loop_take E sw sys a ha (W a) (hW a) next bw hle best out
          rw [hstep]
          obtain ⟨r, hr, hcase⟩ := ih (W a) (some a) out1
          refine ⟨r, hr, Or.inr ?_⟩
          rcases hcase with ⟨h1, h2⟩ | ⟨pre, b, post, h1, h2, h3, h4, h5, h6⟩
          · exact ⟨[], a, next, h1, rfl, ha, hle, fun c hc => by simp at hc, h2⟩
          · refine ⟨some a :: pre, b, post, h1, by simp [h2], h3, le_trans h4 hle, ?_, h6⟩
            intro c hc hcand
            rcases List.mem_cons.mp hc with hh | hh
            · cases hh; exact h4
            · exact h5 c hh hcand
        · have hgt : bw < W a := not_le.mp hle
          obtain ⟨out1, hstep⟩ := masked_loop_keep E sw sys a ha (W a) (hW a) next bw hgt best out
          rw [hstep]
          obtain ⟨r, hr, hcase⟩ := ih bw best out1
          refine ⟨r, hr, ?_⟩
          rcases hcase with ⟨h1, h2⟩ | ⟨pre, b, post, h1, h2, h3, h4, h5, h6⟩
          · refine Or.inl ⟨h1, ?_⟩
            intro c hc hcand
            rcases List.mem_cons.mp hc with hh | hh
            · cases hh; exact hgt
            · exact h2 c hh hcand
          · refine Or.inr ⟨some a :: pre, b, post, h1, by simp [h2], h3, h4, ?_, h6⟩
            intro c hc hcand
            rcases List.mem_cons.mp hc with hh | hh
            · cases hh; exact le_of_lt (lt_of_le_of_lt h4 hgt)
            · exact h5 c hh hcand
      · rw [masked_loop_skip E sw sys a ha]
        obtain ⟨r, hr, hcase⟩ := ih bw best out
        refine ⟨r, hr, ?_⟩
        rcases hcase with ⟨h1, h2⟩ | ⟨pre, b, post, h1, h2, h3, h4, h5, h6⟩
        · refine Or.inl ⟨h1, ?_⟩
          intro c hc hcand
          rcases List.mem_cons.mp hc with hh | hh
          · cases hh; exact absurd hcand ha
          · exact h2 c hh hcand
        · refine Or.inr ⟨some a :: pre, b, post, h1, by simp [h2], h3, h4, ?_, h6⟩
          intro c hc hcand
          rcases List.mem_cons.mp hc with hh | hh
          · cases hh; exact absurd hcand ha
          · exact h5 c hh hcand

/-- The loop of `select_goal_masked` keeps the incoming best when every
candidate of the list weighs strictly more than it. -/
theorem masked_loop_above (E : Env Term) (sw : Switches) (sys : System Term)
    (W : binding Term → ℚ) (hW : ∀ b, computeGoalWeight E sw sys b = .ok (W b)) :
    ∀ (l : List (Binding Term)) (bw : ℚ) (best : Binding Term) (out : List (Out Term)),
      (∀ c, some c ∈ l → IsCandidate E c → bw < W c) →
      (select_goal_masked.loop E sw sys l bw best out).1 = .ok best := by
  intro l
  induction l with
  | nil => intro bw best out _; rfl
  | cons d next ih =>
    intro bw best out h
    have hnext : ∀ c, some c ∈ next → IsCandidate E c → bw < W c :=
      fun c hc => h c (List.mem_cons_of_mem _ hc)
    cases d with
    | none => rw [masked_loop_none]; exact ih bw best out hnext
    | some a =>
      by_cases ha : IsCandidate E a
      · obtain ⟨out1, hstep⟩ := masked_loop_keep E sw sys a ha (W a) (hW a) next bw
          (h a (List.mem_cons_self _ _) ha) best out
        rw [hstep]
        exact ih bw best out1 hnext
      · rw [masked_loop_skip E sw sys a ha]
        exact ih bw best out hnext

/-- The loop of `select_goal_masked` returns the candidate `b` that stands
between `pre` and `post` when `b` weighs at most the incoming weight, at most
every candidate before it and strictly less than every candidate after it. -/
theorem masked_loop_last (E : Env Term) (sw : Switches) (sys : System Term)
    (W : binding Term → ℚ) (hW : ∀ b, computeGoalWeight E sw sys b = .ok (W b))
    (b : binding Term) (hb : IsCandidate E b) (post : List (Binding Term))
    (hpost : ∀ c, some c ∈ post → IsCandidate E c → W b < W c) :
    ∀ (pre : List (Binding Term)) (bw : ℚ) (best : Binding Term) (out : List (Out Term)),
      W b ≤ bw → (∀ c, some c ∈ pre → IsCandidate E c → W b ≤ W c) →
      (select_goal_masked.loop E sw sys (pre ++ some b :: post) bw best out).1 =
        .ok (some b) := by
  intro pre
  induction pre with
  | nil =>
    intro bw best out hle _
    obtain ⟨out1, hstep⟩ := masked_loop_take E sw sys b hb (W b) (hW b) post bw hle best out
    rw [List.nil_append, hstep]
    exact masked_loop_above E sw sys W hW post (W b) (some b) out1 hpost
  | cons d pre ih =>
    intro bw best out hle hpre
    have hpre1 : ∀ c, some c ∈ pre → IsCandidate E c → W b ≤ W c :=
      fun c hc => hpre c (List.mem_cons_of_mem _ hc)
    rw [List.cons_append]
    cases d with
    | none => rw [masked_loop_none]; exact ih bw best out hle hpre1
    | some a =>
      by_cases ha : IsCandidate E a
      · by_cases hab : W a ≤ bw
        · obtain ⟨out1, hstep⟩ :=
            masked_loop_take E sw sys a ha (W a) (hW a) (pre ++ some b :: post) bw hab best out
          rw [hstep]
          exact ih (W a) (some a) out1 (hpre a (List.mem_cons_self _ _) ha) hpre1
        · obtain ⟨out1, hstep⟩ :=
            masked_loop_keep E sw sys a ha (W a) (hW a) (pre ++ some b :: post) bw
              (not_le.mp hab) best out
          rw [hstep]
          exact ih bw best out1 hle hpre1
      · rw [masked_loop_skip E sw sys a ha]
        exact ih bw best out hle hpre1

end Steps

/-! ## Rounding to float -/

section Rounding

theorem roundNearestEven_bounds (x : ℚ) :
    ⌊x⌋ ≤ roundNearestEven x ∧ roundNearestEven x ≤ ⌊x⌋ + 1 := by
  unfold roundNearestEven
  simp only []
  split_ifs <;> omega

theorem roundNearestEven_intCast (n : ℤ) : roundNearestEven (n : ℚ) = n := by
  unfold roundNearestEven
  simp

theorem roundNearestEven_mono {x y : ℚ} (h : x ≤ y) :
    roundNearestEven x ≤ roundNearestEven y := by
  have hf : ⌊x⌋ ≤ ⌊y⌋ := Int.floor_mono h
  rcases lt_or_eq_of_le hf with hlt | heq
  · have h1 := (roundNearestEven_bounds x).2
    have h2 := (roundNearestEven_bounds y).1
    omega
  · unfold roundNearestEven
    simp only []
    rw [← heq]
    split_ifs <;> first | omega | (exfalso; linarith)

theorem toFloat_zero : toFloat 0 = 0 := by simp [toFloat]

theorem toFloat_one : toFloat 1 = 1 := by decide!

theorem toFloat_quantum_pos (e : ℤ) : (0 : ℚ) < 2 ^ (e - 23) := zpow_pos (by norm_num) _

theorem toFloat_nonneg {x : ℚ} (h : 0 ≤ x) : 0 ≤ toFloat x := by
  unfold toFloat
  split_ifs with h0
  · exact le_refl _
  · simp only []
    apply mul_nonneg _ (le_of_lt (toFloat_quantum_pos _))
    have hq : (0 : ℚ) ≤ x / 2 ^ (max (Int.log 2 |x|) (-126) - 23) :=
      div_nonneg h (le_of_lt (toFloat_quantum_pos _))
    have := roundNearestEven_mono hq
    rw [show ((0 : ℚ)) = ((0 : ℤ) : ℚ) by simp, roundNearestEven_intCast] at this
    exact_mod_cast this


theorem toFloat_pow_split_high (e : ℤ) : (2 : ℚ) ^ (e + 1) = 16777216 * 2 ^ (e - 23) := by
  rw [show e + 1 = 24 + (e - 23) by ring, zpow_add₀ (by norm_num : (2 : ℚ) ≠ 0)]
  norm_num

theorem toFloat_pow_split_low (e : ℤ) : (2 : ℚ) ^ e = 8388608 * 2 ^ (e - 23) := by
  rw [show e = 23 + (e - 23) by ring, zpow_add₀ (by norm_num : (2 : ℚ) ≠ 0)]
  norm_num

/-- A positive value below `2 ^ (e + 1)` rounds, with the quantum of the
exponent `e`, to at most `2 ^ (e + 1)`. -/
theorem toFloat_round_le {x : ℚ} {e : ℤ} (hlt : x ≤ 2 ^ (e + 1)) :
    (roundNearestEven (x / 2 ^ (e - 23)) : ℚ) * 2 ^ (e - 23) ≤ 2 ^ (e + 1) := by
  have hq := toFloat_quantum_pos e
  have h1 : x / 2 ^ (e - 23) ≤ ((16777216 : ℤ) : ℚ) := by
    rw [div_le_iff₀ hq]
    rw [toFloat_pow_split_high] at hlt
    exact_mod_cast hlt
  have h2 := roundNearestEven_mono h1
  rw [roundNearestEven_intCast] at h2
  have h3 : (roundNearestEven (x / 2 ^ (e - 23)) : ℚ) ≤ 16777216 := by exact_mod_cast h2
  rw [toFloat_pow_split_high]
  exact mul_le_mul_of_nonneg_right h3 (le_of_lt hq)

/-- A value of at least `2 ^ e` rounds, with the quantum of the exponent `e`,
to at least `2 ^ e`. -/
theorem toFloat_round_ge {y : ℚ} {e : ℤ} (hge : 2 ^ e ≤ y) :
    (2 : ℚ) ^ e ≤ (roundNearestEven (y / 2 ^ (e - 23)) : ℚ) * 2 ^ (e - 23) := by
  have hq := toFloat_quantum_pos e
  have h1 : ((8388608 : ℤ) : ℚ) ≤ y / 2 ^ (e - 23) := by
    rw [le_div_iff₀ hq]
    rw [toFloat_pow_split_low] at hge
    exact_mod_cast hge
  have h2 := roundNearestEven_mono h1
  rw [roundNearestEven_intCast] at h2
  have h3 : (8388608 : ℚ) ≤ (roundNearestEven (y / 2 ^ (e - 23)) : ℚ) := by exact_mod_cast h2
  rw [toFloat_pow_split_low]
  exact mul_le_mul_of_nonneg_right h3 (le_of_lt hq)

/-- Rounding to `float` is monotone on the non-negative rationals. -/
theorem toFloat_mono_nonneg {x y : ℚ} (hx : 0 ≤ x) (hxy : x ≤ y) : toFloat x ≤ toFloat y := by
  rcases eq_or_lt_of_le hx with h0 | hpos
  · rw [← h0, toFloat_zero]
    exact toFloat_nonneg (le_trans hx hxy)
  · have hy : 0 < y := lt_of_lt_of_le hpos hxy
    have hlog : Int.log 2 x ≤ Int.log 2 y := Int.log_mono_right hpos hxy
    unfold toFloat
    rw [if_neg (ne_of_gt hpos), if_neg (ne_of_gt hy), abs_of_pos hpos, abs_of_pos hy]
    simp only []
    rcases eq_or_lt_of_le (max_le_max_right (-126) hlog) with heq | hlt
    · rw [← heq]
      have hq := toFloat_quantum_pos (max (Int.log 2 x) (-126))
      have h1 : x / 2 ^ (max (Int.log 2 x) (-126) - 23) ≤
          y / 2 ^ (max (Int.log 2 x) (-126) - 23) := div_le_div_of_nonneg_right hxy (le_of_lt hq)
      have h2 := roundNearestEven_mono h1
      exact mul_le_mul_of_nonneg_right (by exact_mod_cast h2) (le_of_lt hq)
    · have hey : max (Int.log 2 y) (-126) = Int.log 2 y := by
        apply max_eq_left
        have : -126 ≤ max (Int.log 2 x) (-126) := le_max_right _ _
        omega
      have hxe : x ≤ 2 ^ (max (Int.log 2 x) (-126) + 1) := by
        have h1 : x < (2 : ℚ) ^ (Int.log 2 x + 1) := by
          exact_mod_cast Int.lt_zpow_succ_log_self (by norm_num : 1 < 2) x
        have h2 : (2 : ℚ) ^ (Int.log 2 x + 1) ≤ 2 ^ (max (Int.log 2 x) (-126) + 1) :=
          zpow_le_zpow_right₀ (by norm_num) (by have := le_max_left (Int.log 2 x) (-126); omega)
        exact le_of_lt (lt_of_lt_of_le h1 h2)
      have hye : (2 : ℚ) ^ (max (Int.log 2 y) (-126)) ≤ y := by
        rw [hey]
        exact_mod_cast Int.zpow_log_le_self (by norm_num : 1 < 2) hy
      calc (roundNearestEven (x / 2 ^ (max (Int.log 2 x) (-126) - 23)) : ℚ) *
            2 ^ (max (Int.log 2 x) (-126) - 23)
          ≤ 2 ^ (max (Int.log 2 x) (-126) + 1) := toFloat_round_le hxe
        _ ≤ 2 ^ (max (Int.log 2 y) (-126)) := zpow_le_zpow_right₀ (by norm_num) (by omega)
        _ ≤ _ := toFloat_round_ge hye

/-- A natural number up to `2 ^ 24` is a `float`. -/
theorem toFloat_natCast (n : ℕ) (h : n ≤ 16777216) : toFloat (n : ℚ) = n := by
  rcases Nat.eq_zero_or_pos n with h0 | hpos
  · subst h0
    simp [toFloat]
  · have hn0 : (n : ℚ) ≠ 0 := by exact_mod_cast (ne_of_gt hpos)
    have hnpos : (0 : ℚ) < (n : ℚ) := by exact_mod_cast hpos
    have hlog : Int.log 2 (n : ℚ) = (Nat.log 2 n : ℤ) := Int.log_natCast 2 n
    have he : Nat.log 2 n < 25 :=
      Nat.log_lt_of_lt_pow (ne_of_gt hpos) (by norm_num; omega)
    have hmax : max ((Nat.log 2 n : ℕ) : ℤ) (-126) = (Nat.log 2 n : ℤ) := by
      apply max_eq_left
      omega
    unfold toFloat
    rw [if_neg hn0, abs_of_pos hnpos, hlog, hmax]
    simp only []
    rcases Nat.lt_or_ge (Nat.log 2 n) 24 with hlt | hge
    · obtain ⟨d, hd⟩ : ∃ d : ℕ, (Nat.log 2 n : ℤ) - 23 = -(d : ℤ) :=
        ⟨23 - Nat.log 2 n, by omega⟩
      rw [hd, zpow_neg, zpow_natCast, div_inv_eq_mul]
      have hk : (n : ℚ) * 2 ^ d = (((n * 2 ^ d : ℕ) : ℤ) : ℚ) := by push_cast; ring
      rw [hk, roundNearestEven_intCast]
      push_cast
      field_simp
    · have hn : n = 16777216 := by
        have h1 : 2 ^ Nat.log 2 n ≤ n := Nat.pow_log_le_self 2 (ne_of_gt hpos)
        have h2 : 2 ^ 24 ≤ 2 ^ Nat.log 2 n := Nat.pow_le_pow_right (by norm_num) hge
        norm_num at h2
        omega
      have h24 : Nat.log 2 n = 24 := by omega
      rw [h24, hn]
      norm_num
      rw [show (8388608 : ℚ) = ((8388608 : ℤ) : ℚ) by norm_num, roundNearestEven_intCast]
      norm_num

end Rounding

/-! ## The weight compiler -/

section Weight

variable {Term : Type}

/-- On a non-negative mask the four halvings of `erode` leave `h / 16`. -/
theorem erode_residual (h : Int) (h0 : 0 ≤ h) :
    Int.tdiv (Int.tdiv (Int.tdiv (Int.tdiv h 2) 2) 2) 2 = h / 16 := by
  have e1 : Int.tdiv h 2 = h / 2 := Int.tdiv_eq_ediv h0 (by decide)
  have p1 : 0 ≤ h / 2 := by omega
  have e2 : Int.tdiv (h / 2) 2 = h / 2 / 2 := Int.tdiv_eq_ediv p1 (by decide)
  have p2 : 0 ≤ h / 2 / 2 := by omega
  have e3 : Int.tdiv (h / 2 / 2) 2 = h / 2 / 2 / 2 := Int.tdiv_eq_ediv p2 (by decide)
  have p3 : 0 ≤ h / 2 / 2 / 2 := by omega
  have e4 : Int.tdiv (h / 2 / 2 / 2) 2 = h / 2 / 2 / 2 / 2 := Int.tdiv_eq_ediv p3 (by decide)
  rw [e1, e2, e3, e4]
  omega

/-- Whether `computeGoalWeight` fails depends on the mask only. -/
theorem computeGoalWeight_cases (E : Env Term) (sw : Switches) (sys : System Term) :
    (∀ b, ∃ w, computeGoalWeight E sw sys b = .ok w) ∨
    (∀ b, computeGoalWeight E sw sys b = .error (.illegalHeuristicMode sw.heuristic)) := by
  by_cases h : Int.tdiv (Int.tdiv (Int.tdiv (Int.tdiv sw.heuristic 2) 2) 2) 2 > 0
  · right
    intro b
    simp [computeGoalWeight, computeGoalWeight.erode, h]
  · left
    intro b
    simp [computeGoalWeight, computeGoalWeight.erode, h]

theorem computeGoalWeight_legal (E : Env Term) (sw : Switches) (sys : System Term)
    (h0 : 0 ≤ sw.heuristic) (h15 : sw.heuristic ≤ 15) (b : binding Term) :
    ∃ w, computeGoalWeight E sw sys b = .ok w := by
  have hres := erode_residual sw.heuristic h0
  have h : ¬ Int.tdiv (Int.tdiv (Int.tdiv (Int.tdiv sw.heuristic 2) 2) 2) 2 > 0 := by
    rw [hres]; omega
  simp [computeGoalWeight, computeGoalWeight.erode, h]

theorem computeGoalWeight_illegal (E : Env Term) (sw : Switches) (sys : System Term)
    (h16 : 16 ≤ sw.heuristic) (b : binding Term) :
    computeGoalWeight E sw sys b = .error (.illegalHeuristicMode sw.heuristic) := by
  have hres := erode_residual sw.heuristic (by omega)
  have h : Int.tdiv (Int.tdiv (Int.tdiv (Int.tdiv sw.heuristic 2) 2) 2) 2 > 0 := by
    rw [hres]; omega
  simp [computeGoalWeight, computeGoalWeight.erode, h]

end Weight

/-! ## The masked strategy -/

section Masked

variable {Term : Type}

/-- C7 (masked emptiness). Whatever the mask, when the binding set is empty or
every binding in it is blocked, done or has a variable as its term,
`select_goal_masked` returns `NULL` ("no goal") and raises no error. -/
theorem select_goal_masked_no_goal (E : Env Term) (sw : Switches) (sys : System Term)
    (h : ∀ b, some b ∈ sys.bindings →
      b.blocked = true ∨ b.done = true ∨ E.isTermVariable b.term = true) :
    (select_goal_masked E sw sys).1 = .ok none := by
  rw [select_goal_masked_fst, masked_loop_no_candidate]
  intro c hc hcand
  have hsel := (is_goal_selectable_some c).mp hcand.1
  rcases h c hc with h1 | h1 | h1
  · rw [hsel.1] at h1; cases h1
  · rw [hsel.2] at h1; cases h1
  · rw [hcand.2] at h1; cases h1

/-- The mask 16 is illegal, yet a binding set that holds a blocked binding, a
`NULL` entry, a done binding and a binding of a variable yields "no goal". -/
theorem select_goal_masked_no_goal_witness :
    (select_goal_masked demoEnv { heuristic := 16, output := 5 }
      (demoSys [some demoBlocked, none, some demoDone, some demoB0])).1 = .ok none :=
  select_goal_masked_no_goal demoEnv _ _ (by
    intro b hb
    simp only [demoSys, List.mem_cons, Option.some.injEq, List.mem_singleton] at hb
    rcases hb with rfl | hb | rfl | rfl | hb
    · simp [demoBlocked]
    · cases hb
    · simp [demoDone]
    · simp [demoB0, demoEnv]
    · simp at hb)

/-- C8 (masked exclusion). A binding returned by `select_goal_masked` is an
entry of the binding set, is neither blocked nor done, and its term is not a
variable. -/
theorem select_goal_masked_excludes (E : Env Term) (sw : Switches) (sys : System Term)
    (b : binding Term) (h : (select_goal_masked E sw sys).1 = .ok (some b)) :
    some b ∈ sys.bindings ∧ b.blocked = false ∧ b.done = false ∧
      E.isTermVariable b.term = false := by
  rw [select_goal_masked_fst] at h
  rcases computeGoalWeight_cases E sw sys with hok | herr
  · choose W hW using hok
    obtain ⟨r, hr, hcase⟩ := masked_loop_spec E sw sys W hW sys.bindings FLT_MAX none
      (if sw.output = E.PROOF then
        [Out.indent, Out.text "Listing open goals that might be chosen: "] else [])
    rw [hr] at h
    have hrb : r = some b := Except.ok.inj h
    rcases hcase with ⟨h1, _⟩ | ⟨pre, a, post, h1, h2, h3, _, _, _⟩
    · rw [hrb] at h1; cases h1
    · rw [hrb] at h1
      cases h1
      have hsel := (is_goal_selectable_some b).mp h3.1
      exact ⟨by rw [h2]; simp, hsel.1, hsel.2, h3.2⟩
  · by_cases hc : ∃ c, some c ∈ sys.bindings ∧ IsCandidate E c
    · rw [masked_loop_error_of_candidate E sw sys _ herr sys.bindings _ _ _ hc] at h
      cases h
    · rw [masked_loop_no_candidate E sw sys sys.bindings _ _ _
        (fun c hmem hcand => hc ⟨c, hmem, hcand⟩)] at h
      cases h

/-- Under the mask 15 the set `[demoB0, demoBlocked, demoB1, demoB2]` yields
`demoB2`, which is in the set, not blocked, not done, and a constant. -/
theorem select_goal_masked_excludes_witness :
    some demoB2 ∈ (demoSys [some demoB0, some demoBlocked, some demoB1, some demoB2]).bindings ∧
      demoB2.blocked = false ∧ demoB2.done = false ∧
      demoEnv.isTermVariable demoB2.term = false :=
  select_goal_masked_excludes demoEnv { heuristic := 15, output := 5 }
    (demoSys [some demoB0, some demoBlocked, some demoB1, some demoB2]) demoB2 (by decide!)

end Masked

/-! ## The weight of a goal -/

section WeightClaims

variable {Term : Type}

/-- C5 (mask validation). For a non-negative heuristic value `m`, the mask left
after the four calls of `erode` is positive exactly when `16 ≤ m`;
`computeGoalWeight` fails exactly then, with the error "--heuristic mode m is
illegal"; and for `m ≤ 15` it returns a weight. -/
theorem computeGoalWeight_error_iff (E : Env Term) (sw : Switches) (sys : System Term)
    (b : binding Term) (h0 : 0 ≤ sw.heuristic) :
    (∀ d1 d2 d3 d4 : ℚ,
      0 < (computeGoalWeight.erode d4 (computeGoalWeight.erode d3 (computeGoalWeight.erode d2
        (computeGoalWeight.erode d1 { w := 0, smode := sw.heuristic })))).smode ↔
      16 ≤ sw.heuristic) ∧
    ((∃ e, computeGoalWeight E sw sys b = .error e) ↔ 16 ≤ sw.heuristic) ∧
    (16 ≤ sw.heuristic →
      computeGoalWeight E sw sys b = .error (.illegalHeuristicMode sw.heuristic)) ∧
    (sw.heuristic ≤ 15 → ∃ w, computeGoalWeight E sw sys b = .ok w) := by
  refine ⟨?_, ?_, fun h16 => computeGoalWeight_illegal E sw sys h16 b,
    fun h15 => computeGoalWeight_legal E sw sys h0 h15 b⟩
  · intro d1 d2 d3 d4
    simp only [computeGoalWeight.erode]
    rw [erode_residual sw.heuristic h0]
    omega
  · constructor
    · rintro ⟨e, he⟩
      by_contra hlt
      obtain ⟨w, hw⟩ := computeGoalWeight_legal E sw sys h0 (by omega) b
      rw [hw] at he
      cases he
    · intro h16
      exact ⟨_, computeGoalWeight_illegal E sw sys h16 b⟩

/-- The mask 16 is non-negative and `computeGoalWeight` fails on it; the mask
15 is non-negative and `computeGoalWeight` returns a weight on it. -/
theorem computeGoalWeight_error_iff_witness :
    computeGoalWeight demoEnv { heuristic := 16, output := 0 } (demoSys [some demoB1]) demoB1 =
      .error (.illegalHeuristicMode 16) ∧
    ∃ w, computeGoalWeight demoEnv { heuristic := 15, output := 0 } (demoSys [some demoB1])
      demoB1 = .ok w :=
  ⟨(computeGoalWeight_error_iff demoEnv { heuristic := 16, output := 0 }
      (demoSys [some demoB1]) demoB1 (by decide)).2.2.1 (by decide),
   (computeGoalWeight_error_iff demoEnv { heuristic := 15, output := 0 }
      (demoSys [some demoB1]) demoB1 (by decide)).2.2.2 (by decide)⟩

/-- C6, the claim as stated fails: under the mask 5 (slots 0 and 2), with the
hide-level flag `HLFLAG_KNOW` and the constrain level 11184811/33554432 (the
`float` nearest to 1/3), the exact sum of the enabled slots is
`1 + 11184811/33554432 = 44739243/33554432`, but the weight is the `float`
nearest to it, 11184811/8388608. -/
theorem computeGoalWeight_rounds_sum :
    computeGoalWeightFloat thirdEnv { heuristic := 5, output := 0 } (demoSys []) demoB1 =
      .ok (11184811 / 8388608) ∧
    ((((5 : Int) % 2 : Int) : ℚ) *
        (2 * weighHidelevel thirdEnv (demoSys []) demoB1.term (1 / 2) (1 / 2)) +
      (((5 : Int) / 2 % 2 : Int) : ℚ) * ((1 / 2) * (1 - demoB1.level)) +
      (((5 : Int) / 4 % 2 : Int) : ℚ) * thirdEnv.term_constrain_level demoB1.term +
      (((5 : Int) / 8 % 2 : Int) : ℚ) * term_noncevariables_level thirdEnv demoB1.term =
        44739243 / 33554432) ∧
    computeGoalWeightFloat thirdEnv { heuristic := 5, output := 0 } (demoSys []) demoB1 ≠
      .ok ((((5 : Int) % 2 : Int) : ℚ) *
          (2 * weighHidelevel thirdEnv (demoSys []) demoB1.term (1 / 2) (1 / 2)) +
        (((5 : Int) / 2 % 2 : Int) : ℚ) * ((1 / 2) * (1 - demoB1.level)) +
        (((5 : Int) / 4 % 2 : Int) : ℚ) * thirdEnv.term_constrain_level demoB1.term +
        (((5 : Int) / 8 % 2 : Int) : ℚ) * term_noncevariables_level thirdEnv demoB1.term) := by
  refine ⟨by decide!, by decide!, by decide!⟩

/-- C6 as amended (weight is the sum of the enabled slots in float
arithmetic). For a mask `m` in 0..15 the weight of a binding `b` with term `t`
is the sum of the enabled slots accumulated lowest bit first, each addition
rounded to `float`: starting from 0, the slot `2 * weighHidelevel t 0.5 0.5` is
added when the binary digit 0 of `m` is 1, `0.5 * (1 - b.level)` when digit 1
is, `term_constrain_level t` when digit 2 is and `term_noncevariables_level t`
when digit 3 is, every slot being a `float`. -/
theorem computeGoalWeightFloat_sum (E : Env Term) (sw : Switches) (sys : System Term)
    (b : binding Term) (h0 : 0 ≤ sw.heuristic) (h15 : sw.heuristic ≤ 15) :
    computeGoalWeightFloat E sw sys b = .ok (floatSlotSum sw.heuristic
      (toFloat (2 * weighHidelevel E sys b.term (toFloat (1 / 2)) (toFloat (1 / 2))))
      (toFloat ((1 / 2) * (1 - b.level)))
      (toFloat (E.term_constrain_level b.term))
      (toFloat (term_noncevariables_level E b.term))) := by
  obtain ⟨m, o⟩ := sw
  simp only at h0 h15
  interval_cases m <;>
    simp [computeGoalWeightFloat, computeGoalWeightFloat.erode, floatSlotSum, Int.tdiv]

/-- Under the mask 5, in `thirdEnv`, the binding `demoB1` weighs the `float`
sum of the slots 0 and 2. -/
theorem computeGoalWeightFloat_sum_witness :
    computeGoalWeightFloat thirdEnv { heuristic := 5, output := 0 } (demoSys []) demoB1 =
      .ok (floatSlotSum 5
        (toFloat (2 * weighHidelevel thirdEnv (demoSys []) demoB1.term
          (toFloat (1 / 2)) (toFloat (1 / 2))))
        (toFloat ((1 / 2) * (1 - demoB1.level)))
        (toFloat (thirdEnv.term_constrain_level demoB1.term))
        (toFloat (term_noncevariables_level thirdEnv demoB1.term))) :=
  computeGoalWeightFloat_sum thirdEnv { heuristic := 5, output := 0 } (demoSys []) demoB1
    (by decide) (by decide)

/-- C10, the claim as stated fails: for `level = -1` the slot-1 contribution
`0.5 * (1 - level)`, which is the whole weight under the mask 2, is 1 and not
0.75. -/
theorem key_level_delay_is_one :
    computeGoalWeight demoEnv { heuristic := 2, output := 0 } (demoSys [])
      { done := false, blocked := false, term := DemoTerm.const 1, level := -1 } = .ok 1 ∧
    computeGoalWeight demoEnv { heuristic := 2, output := 0 } (demoSys [])
      { done := false, blocked := false, term := DemoTerm.const 1, level := -1 } ≠
        .ok (3 / 4) := by
  constructor <;> decide!

/-- C10 as amended (key-level metric values). The slot-1 contribution
`0.5 * (1 - level)`, which is the whole weight under the mask 2, is 1 for
`level = -1`, 0.5 for `level = 0` and 0 for `level = 1`. -/
theorem key_level_values (E : Env Term) (sys : System Term) (output : Int)
    (done blocked : Bool) (term : Term) :
    computeGoalWeight E { heuristic := 2, output := output } sys
      { done := done, blocked := blocked, term := term, level := -1 } = .ok 1 ∧
    computeGoalWeight E { heuristic := 2, output := output } sys
      { done := done, blocked := blocked, term := term, level := 0 } = .ok (1 / 2) ∧
    computeGoalWeight E { heuristic := 2, output := output } sys
      { done := done, blocked := blocked, term := term, level := 1 } = .ok 0 := by
  refine ⟨?_, ?_, ?_⟩
  · simp [computeGoalWeight, computeGoalWeight.erode, Int.tdiv]
    norm_num
  · simp [computeGoalWeight, computeGoalWeight.erode, Int.tdiv]
  · simp [computeGoalWeight, computeGoalWeight.erode, Int.tdiv]

end WeightClaims

/-! ## The random strategy and the dispatcher -/

section Dispatch

variable {Term : Type}

/-- C3, the code at a failing input: with the two selectable bindings
`[demoB1, demoB2]` there are two selectable goals, and for the draw 1 the
random strategy returns `demoB1`, the selectable binding number 0, where the
claim names `demoB2`, the selectable binding number 1; the draw 0 returns
`demoB1` as well, so `demoB2` is the result of no draw. -/
theorem select_goal_random_draw_one :
    count_selectable_goals (demoSys [some demoB1, some demoB2]) = 2 ∧
    select_goal_random (demoSys [some demoB1, some demoB2]) 1 = .ok (some demoB1) ∧
    select_goal_random (demoSys [some demoB1, some demoB2]) 0 = .ok (some demoB1) ∧
    demoB1 ≠ demoB2 := by
  decide

/-- C4 (dispatch). `select_goal` is `select_goal_masked` when the heuristic is
non-negative, is `select_goal_random` (which prints nothing) when it is -1, and
fails with the error "Unknown value (<0) for --goal-select." when it is at most
-2, whatever the binding set. -/
theorem select_goal_dispatch (E : Env Term) (sw : Switches) (sys : System Term) (r : Nat) :
    (0 ≤ sw.heuristic → select_goal E sw sys r = select_goal_masked E sw sys) ∧
    (sw.heuristic = -1 → select_goal E sw sys r = (select_goal_random sys r, [])) ∧
    (sw.heuristic ≤ -2 → select_goal E sw sys r = (.error .unknownGoalSelect, [])) := by
  refine ⟨?_, ?_, ?_⟩
  · intro h
    simp [select_goal, h]
  · intro h
    simp [select_goal, h]
  · intro h
    have h1 : ¬ (sw.heuristic ≥ 0) := by omega
    have h2 : ¬ (sw.heuristic = -1) := by omega
    simp [select_goal, h1, h2]

/-- The three branches of the dispatcher at the heuristic values 2, -1 and -2. -/
theorem select_goal_dispatch_witness :
    select_goal demoEnv { heuristic := 2, output := 0 } (demoSys [some demoB3, some demoB1]) 7 =
      select_goal_masked demoEnv { heuristic := 2, output := 0 }
        (demoSys [some demoB3, some demoB1]) ∧
    select_goal demoEnv { heuristic := -1, output := 0 } (demoSys [some demoB3, some demoB1]) 7 =
      (select_goal_random (demoSys [some demoB3, some demoB1]) 7, []) ∧
    select_goal demoEnv { heuristic := -2, output := 0 } (demoSys [some demoB3, some demoB1]) 7 =
      (.error .unknownGoalSelect, []) :=
  ⟨(select_goal_dispatch demoEnv { heuristic := 2, output := 0 }
      (demoSys [some demoB3, some demoB1]) 7).1 (by decide),
   (select_goal_dispatch demoEnv { heuristic := -1, output := 0 }
      (demoSys [some demoB3, some demoB1]) 7).2.1 (by decide),
   (select_goal_dispatch demoEnv { heuristic := -2, output := 0 }
      (demoSys [some demoB3, some demoB1]) 7).2.2 (by decide)⟩

/-- C9, the claim as stated fails: with the heuristic 16 (bit 4 set) and an
empty binding set, `select_goal` returns "no goal" and raises no error. -/
theorem select_goal_illegal_mask_empty_set :
    (select_goal demoEnv { heuristic := 16, output := 0 } (demoSys []) 0).1 = .ok none ∧
    ¬ ∃ e, (select_goal demoEnv { heuristic := 16, output := 0 } (demoSys []) 0).1 =
      .error e := by
  have h : (select_goal demoEnv { heuristic := 16, output := 0 } (demoSys []) 0).1 =
      .ok none := by decide
  refine ⟨h, ?_⟩
  rintro ⟨e, he⟩
  rw [h] at he
  cases he

/-- C9 as amended (configuration rejection). With a heuristic value of 16 or
more, `select_goal` raises the error "--heuristic mode is illegal" when the
binding set holds a selectable binding whose term is not a variable, and
returns "no goal" without error when it holds none. -/
theorem select_goal_illegal_mask (E : Env Term) (sw : Switches) (sys : System Term) (r : Nat)
    (h16 : 16 ≤ sw.heuristic) :
    ((∃ c, some c ∈ sys.bindings ∧ is_goal_selectable (some c) = true ∧
        E.isTermVariable c.term = false) →
      (select_goal E sw sys r).1 = .error (.illegalHeuristicMode sw.heuristic)) ∧
    ((¬ ∃ c, some c ∈ sys.bindings ∧ is_goal_selectable (some c) = true ∧
        E.isTermVariable c.term = false) →
      (select_goal E sw sys r).1 = .ok none) := by
  have hd : select_goal E sw sys r = select_goal_masked E sw sys := by
    have : sw.heuristic ≥ 0 := by omega
    simp [select_goal, this]
  rw [hd, select_goal_masked_fst]
  constructor
  · rintro ⟨c, hc, hsel, hvar⟩
    exact masked_loop_error_of_candidate E sw sys _
      (computeGoalWeight_illegal E sw sys h16) sys.bindings _ _ _ ⟨c, hc, hsel, hvar⟩
  · intro hnone
    rw [masked_loop_no_candidate E sw sys sys.bindings _ _ _
      (fun c hmem hcand => hnone ⟨c, hmem, hcand.1, hcand.2⟩)]

/-- With the heuristic 16 the set `[demoB0, demoB1]` holds the candidate
`demoB1` and `select_goal` fails; the set `[demoB0]` holds none and
`select_goal` returns "no goal". -/
theorem select_goal_illegal_mask_witness :
    (select_goal demoEnv { heuristic := 16, output := 0 }
      (demoSys [some demoB0, some demoB1]) 0).1 = .error (.illegalHeuristicMode 16) ∧
    (select_goal demoEnv { heuristic := 16, output := 0 } (demoSys [some demoB0]) 0).1 =
      .ok none :=
  ⟨(select_goal_illegal_mask demoEnv { heuristic := 16, output := 0 }
      (demoSys [some demoB0, some demoB1]) 0 (by decide)).1 ⟨demoB1, by decide, by decide, by decide⟩,
   (select_goal_illegal_mask demoEnv { heuristic := 16, output := 0 }
      (demoSys [some demoB0]) 0 (by decide)).2 (by
        rintro ⟨c, hc, _, hvar⟩
        simp only [demoSys, List.mem_singleton, Option.some.injEq] at hc
        subst hc
        simp [demoB0, demoEnv] at hvar)⟩

end Dispatch

/-! ## The trace-impact metric -/

section Trace

variable {Term : Type}

theorem scanVariables_eq (E : Env Term) (rd : roledef Term) :
    ∀ (V : Termlist Term) (affectedCount : Int),
      termBindConsequences.scanVariables E rd V affectedCount =
        affectedCount + (if eventAffected E V rd = true then 1 else 0) := by
  intro V
  induction V with
  | nil => intro a; simp [termBindConsequences.scanVariables, eventAffected]
  | cons v next ih =>
    intro a
    rw [termBindConsequences.scanVariables]
    by_cases h : ((rd.type = E.READ || rd.type = E.SEND) && E.termSubTerm rd.message v) = true
    · rw [if_pos h]
      have : eventAffected E (v :: next) rd = true := by
        simp only [eventAffected, List.any_cons]
        simp only [Bool.and_eq_true] at h
        simp [h.1, h.2]
      rw [if_pos this]
    · rw [if_neg h, ih]
      have : eventAffected E (v :: next) rd = eventAffected E next rd := by
        simp only [eventAffected, List.any_cons]
        cases h1 : (decide (rd.type = E.READ) || decide (rd.type = E.SEND))
        · simp
        · cases h2 : E.termSubTerm rd.message v
          · simp
          · exact absurd (by simp [h1, h2]) h
      rw [this]

theorem scanRun_eq (E : Env Term) (V : Termlist Term) :
    ∀ (l : Roledef Term) (k : Nat) (totalCount affectedCount : Int), k ≤ l.length →
      termBindConsequences.scanRun E V l k (totalCount, affectedCount) =
        .ok (totalCount + k,
          affectedCount + (((l.take k).filter (eventAffected E V)).length : Nat)) := by
  intro l
  induction l with
  | nil =>
    intro k tot aff hk
    have : k = 0 := by simpa using hk
    subst this
    simp [termBindConsequences.scanRun]
  | cons rd next ih =>
    intro k tot aff hk
    cases k with
    | zero => simp [termBindConsequences.scanRun]
    | succ k =>
      rw [termBindConsequences.scanRun, ih k _ _ (by simpa using hk), scanVariables_eq]
      simp only [List.take_succ_cons, List.filter_cons]
      by_cases h : eventAffected E V rd = true
      · simp [h]; constructor <;> ring
      · simp [h]; ring

theorem scanRuns_eq (E : Env Term) (V : Termlist Term) :
    ∀ (runs : List (run Term)) (totalCount affectedCount : Int),
      (∀ r, r ∈ runs → r.height ≤ r.start.length) →
      termBindConsequences.scanRuns E V runs (totalCount, affectedCount) =
        .ok (totalCount + ((runs.map (fun r => (committedEvents r).length)).sum : Nat),
          affectedCount +
            ((runs.map (fun r =>
              ((committedEvents r).filter (eventAffected E V)).length)).sum : Nat)) := by
  intro runs
  induction runs with
  | nil => intro tot aff _; simp [termBindConsequences.scanRuns]
  | cons r rest ih =>
    intro tot aff hwf
    have hr : r.height ≤ r.start.length := hwf r (List.mem_cons_self _ _)
    have hce : r.start.take r.height = committedEvents r := rfl
    have hlen : (committedEvents r).length = r.height := by
      simp [committedEvents, hr]
    rw [termBindConsequences.scanRuns, scanRun_eq E V r.start r.height tot aff hr, hce]
    simp only []
    rw [ih _ _ (fun q hq => hwf q (List.mem_cons_of_mem _ hq))]
    simp only [List.map_cons, List.sum_cons, hlen, Nat.cast_add]
    congr 2 <;> ring

theorem traceAffected_le_traceTotal (E : Env Term) (V : Termlist Term) (sys : System Term) :
    traceAffected E V sys ≤ traceTotal sys := by
  unfold traceAffected traceTotal
  induction sys.runs with
  | nil => simp
  | cons r rest ih =>
    simp only [List.map_cons, List.sum_cons]
    exact Nat.add_le_add (List.length_filter_le _ _) ih

/-- The value of `termBindConsequences` on a term with variables, for a system
whose runs have at least `height` events each. -/
theorem termBindConsequences_eq (E : Env Term) (sys : System Term) (t : Term)
    (hV : E.termlistAddVariables [] t ≠ []) (hwf : RunsWellFormed sys) :
    termBindConsequences E sys t =
      .ok (if 0 < traceTotal sys then
          toFloat (toFloat (((traceTotal sys : Int) -
            (traceAffected E (E.termlistAddVariables [] t) sys : Int) : Int) : ℚ) /
            toFloat ((traceTotal sys : Int) : ℚ))
        else 1) := by
  unfold termBindConsequences
  cases hlist : E.termlistAddVariables [] t with
  | nil => exact absurd hlist hV
  | cons v vs =>
    simp only []
    have hT : (sys.runs.map (fun r => (committedEvents r).length)).sum = traceTotal sys := rfl
    have hA : (sys.runs.map (fun r =>
        ((committedEvents r).filter (eventAffected E (v :: vs))).length)).sum =
        traceAffected E (v :: vs) sys := rfl
    rw [scanRuns_eq E (v :: vs) sys.runs 0 0 hwf, hT, hA]
    generalize traceTotal sys = T
    generalize traceAffected E (v :: vs) sys = A
    simp only [zero_add]
    by_cases hpos : 0 < T
    · have h1 : ((T : Nat) : Int) > 0 := by exact_mod_cast hpos
      rw [if_pos h1, if_pos hpos]
    · have h1 : ¬ ((T : Nat) : Int) > 0 := by
        intro h; exact hpos (by exact_mod_cast h)
      rw [if_neg h1, if_neg hpos]

theorem traceTotal_eq_zero (sys : System Term) (h : ∀ r, r ∈ sys.runs → r.height = 0) :
    traceTotal sys = 0 := by
  unfold traceTotal
  generalize sys.runs = runs at h ⊢
  induction runs with
  | nil => rfl
  | cons r rest ih =>
    have hr : r.height = 0 := h r (List.mem_cons_self _ _)
    simp only [List.map_cons, List.sum_cons, committedEvents, hr, List.take_zero,
      List.length_nil, zero_add]
    exact ih (fun q hq => h q (List.mem_cons_of_mem _ hq))

/-- C12, the claim as stated fails: in `demoTrace` three events lie below the
heights and one of them is affected by the variable of the term `var 0`, yet
`termBindConsequences` does not return `(3 - 1) / 3`: it returns
11184811/16777216, the `float` nearest to 2/3. -/
theorem termBindConsequences_rounds_two_thirds :
    traceTotal demoTrace = 3 ∧
    traceAffected demoEnv (demoEnv.termlistAddVariables [] (DemoTerm.var 0)) demoTrace = 1 ∧
    termBindConsequences demoEnv demoTrace (DemoTerm.var 0) = .ok (11184811 / 16777216) ∧
    termBindConsequences demoEnv demoTrace (DemoTerm.var 0) ≠
      .ok (((traceTotal demoTrace : ℚ) -
        (traceAffected demoEnv (demoEnv.termlistAddVariables [] (DemoTerm.var 0))
          demoTrace : ℚ)) / (traceTotal demoTrace : ℚ)) := by
  refine ⟨by decide, by decide, by decide!, by decide!⟩

/-- C12 as amended (trace-impact formula and bounds). For a term whose list of
variables `V` is not empty, and a system in which every run has at least
`height` events, `termBindConsequences` returns a value; with `total` the
number of events of all runs up to each run's height and `affected` the number
of those that are read or send events whose message contains a variable of
`V`, the value is, when `total > 0`, the quotient of `total - affected` by
`total` in `float` arithmetic (both converted to `float`, the quotient rounded
to the nearest `float`), which for `total ≤ 2 ^ 24` is the `float` nearest to
`(total - affected) / total`; and it lies in `[0, 1]`. -/
theorem termBindConsequences_float_formula (E : Env Term) (sys : System Term) (t : Term)
    (hV : E.termlistAddVariables [] t ≠ []) (hwf : RunsWellFormed sys) :
    ∃ res : ℚ, termBindConsequences E sys t = .ok res ∧
      (0 < traceTotal sys →
        res = toFloat (toFloat ((traceTotal sys : ℚ) -
            (traceAffected E (E.termlistAddVariables [] t) sys : ℚ)) /
          toFloat (traceTotal sys : ℚ))) ∧
      (0 < traceTotal sys → traceTotal sys ≤ 16777216 →
        res = toFloat (((traceTotal sys : ℚ) -
            (traceAffected E (E.termlistAddVariables [] t) sys : ℚ)) /
          (traceTotal sys : ℚ))) ∧
      0 ≤ res ∧ res ≤ 1 := by
  refine ⟨_, termBindConsequences_eq E sys t hV hwf, ?_, ?_, ?_, ?_⟩
  · intro hpos
    rw [if_pos hpos]
    push_cast
    rfl
  · intro hpos hsmall
    rw [if_pos hpos]
    have hle := traceAffected_le_traceTotal E (E.termlistAddVariables [] t) sys
    have hnum : ((((traceTotal sys : Int) -
        (traceAffected E (E.termlistAddVariables [] t) sys : Int) : Int)) : ℚ) =
        ((traceTotal sys - traceAffected E (E.termlistAddVariables [] t) sys : ℕ) : ℚ) := by
      rw [Nat.cast_sub hle]
      push_cast
      rfl
    have hden : (((traceTotal sys : Int)) : ℚ) = ((traceTotal sys : ℕ) : ℚ) := by
      push_cast
      rfl
    rw [hnum, hden, toFloat_natCast _ (le_trans (Nat.sub_le _ _) hsmall),
      toFloat_natCast _ hsmall, Nat.cast_sub hle]
  · by_cases hpos : 0 < traceTotal sys
    · rw [if_pos hpos]
      apply toFloat_nonneg
      apply div_nonneg <;> apply toFloat_nonneg
      · have hle := traceAffected_le_traceTotal E (E.termlistAddVariables [] t) sys
        have : (0 : Int) ≤ (traceTotal sys : Int) -
            (traceAffected E (E.termlistAddVariables [] t) sys : Int) := by omega
        exact_mod_cast this
      · exact_mod_cast Nat.zero_le (traceTotal sys)
    · rw [if_neg hpos]
      exact zero_le_one
  · by_cases hpos : 0 < traceTotal sys
    · rw [if_pos hpos]
      have hle := traceAffected_le_traceTotal E (E.termlistAddVariables [] t) sys
      have hnum0 : (0 : ℚ) ≤ (((traceTotal sys : Int) -
          (traceAffected E (E.termlistAddVariables [] t) sys : Int) : Int) : ℚ) := by
        have : (0 : Int) ≤ (traceTotal sys : Int) -
            (traceAffected E (E.termlistAddVariables [] t) sys : Int) := by omega
        exact_mod_cast this
      have hnumle : (((traceTotal sys : Int) -
          (traceAffected E (E.termlistAddVariables [] t) sys : Int) : Int) : ℚ) ≤
          ((traceTotal sys : Int) : ℚ) := by
        have : (traceTotal sys : Int) -
            (traceAffected E (E.termlistAddVariables [] t) sys : Int) ≤
            (traceTotal sys : Int) := by omega
        exact_mod_cast this
      have hone : (1 : ℚ) ≤ ((traceTotal sys : Int) : ℚ) := by
        have : (1 : Int) ≤ (traceTotal sys : Int) := by omega
        exact_mod_cast this
      have hden : (1 : ℚ) ≤ toFloat ((traceTotal sys : Int) : ℚ) := by
        have := toFloat_mono_nonneg zero_le_one hone
        rwa [toFloat_one] at this
      have hnd := toFloat_mono_nonneg hnum0 hnumle
      have hq1 : toFloat (((traceTotal sys : Int) -
          (traceAffected E (E.termlistAddVariables [] t) sys : Int) : Int) : ℚ) /
          toFloat ((traceTotal sys : Int) : ℚ) ≤ 1 := by
        rw [div_le_one (lt_of_lt_of_le zero_lt_one hden)]
        exact hnd
      have hq0 : 0 ≤ toFloat (((traceTotal sys : Int) -
          (traceAffected E (E.termlistAddVariables [] t) sys : Int) : Int) : ℚ) /
          toFloat ((traceTotal sys : Int) : ℚ) :=
        div_nonneg (toFloat_nonneg hnum0) (le_trans zero_le_one hden)
      have := toFloat_mono_nonneg hq0 hq1
      rwa [toFloat_one] at this
    · rw [if_neg hpos]

/-- In `demoTrace`, for the term `var 0`, `termBindConsequences` returns the
`float` quotient of 2 by 3, which lies in `[0, 1]`. -/
theorem termBindConsequences_float_formula_witness :
    ∃ res : ℚ, termBindConsequences demoEnv demoTrace (DemoTerm.var 0) = .ok res ∧
      (0 < traceTotal demoTrace →
        res = toFloat (toFloat ((traceTotal demoTrace : ℚ) -
            (traceAffected demoEnv (demoEnv.termlistAddVariables [] (DemoTerm.var 0))
              demoTrace : ℚ)) /
          toFloat (traceTotal demoTrace : ℚ))) ∧
      (0 < traceTotal demoTrace → traceTotal demoTrace ≤ 16777216 →
        res = toFloat (((traceTotal demoTrace : ℚ) -
            (traceAffected demoEnv (demoEnv.termlistAddVariables [] (DemoTerm.var 0))
              demoTrace : ℚ)) / (traceTotal demoTrace : ℚ))) ∧
      0 ≤ res ∧ res ≤ 1 :=
  termBindConsequences_float_formula demoEnv demoTrace (DemoTerm.var 0) (by decide) (by
    intro r hr
    simp only [demoTrace, List.mem_cons, List.mem_singleton] at hr
    rcases hr with rfl | rfl | hr
    · decide
    · decide
    · simp at hr)

/-- C13 (trace-impact degenerate cases). `termBindConsequences` returns exactly
1 for a term without variables, whatever the system, and returns exactly 1 for
every term when the system has no events: no runs, or every run of height 0. -/
theorem termBindConsequences_degenerate (E : Env Term) (sys : System Term) (t : Term) :
    (E.termlistAddVariables [] t = [] → termBindConsequences E sys t = .ok 1) ∧
    ((∀ r, r ∈ sys.runs → r.height = 0) → termBindConsequences E sys t = .ok 1) := by
  have hnil : E.termlistAddVariables [] t = [] → termBindConsequences E sys t = .ok 1 := by
    intro h
    unfold termBindConsequences
    rw [h]
  refine ⟨hnil, ?_⟩
  intro hzero
  by_cases hV : E.termlistAddVariables [] t = []
  · exact hnil hV
  · have hwf : RunsWellFormed sys := by
      intro r hr
      rw [hzero r hr]
      exact Nat.zero_le _
    rw [termBindConsequences_eq E sys t hV hwf, traceTotal_eq_zero sys hzero]
    simp

/-- The constant `const 1` has no variables and weighs 1 in `demoTrace`; the
variable `var 0` weighs 1 in `demoTraceZero`, whose runs all have height 0, and
in a system without runs. -/
theorem termBindConsequences_degenerate_witness :
    termBindConsequences demoEnv demoTrace (DemoTerm.const 1) = .ok 1 ∧
    termBindConsequences demoEnv demoTraceZero (DemoTerm.var 0) = .ok 1 ∧
    termBindConsequences demoEnv (demoSys []) (DemoTerm.var 0) = .ok 1 :=
  ⟨(termBindConsequences_degenerate demoEnv demoTrace (DemoTerm.const 1)).1 (by decide),
   (termBindConsequences_degenerate demoEnv demoTraceZero (DemoTerm.var 0)).2 (by
      intro r hr
      simp only [demoTraceZero, demoTrace, List.map_cons, List.map_nil, List.mem_cons,
        List.mem_singleton] at hr
      rcases hr with rfl | rfl | hr
      · rfl
      · rfl
      · simp at hr),
   (termBindConsequences_degenerate demoEnv (demoSys []) (DemoTerm.var 0)).2 (by
      intro r hr
      simp [demoSys] at hr)⟩

end Trace

/-! ## The nonce-variable metric and the default configuration -/

section NonceAndDefault

variable {Term : Type}

/-- C11, the code at a failing input: the term `tuple (var 0) (var 1)` has the
two distinct open nonce variables `var 0` and `var 1`, yet
`count_open_variables` returns 0 for it and `term_noncevariables_level`
returns 1, where the claim says 0. -/
theorem noncevariables_level_two_open_nonces :
    pairEnv.termlistAddVariables [] (PairTerm.tuple (.var 0) (.var 1)) =
      [PairTerm.var 0, PairTerm.var 1] ∧
    isOpenNonceVar pairEnv (PairTerm.var 0) = true ∧
    isOpenNonceVar pairEnv (PairTerm.var 1) = true ∧
    count_open_variables pairEnv (PairTerm.tuple (.var 0) (.var 1)) = 0 ∧
    term_noncevariables_level pairEnv (PairTerm.tuple (.var 0) (.var 1)) = 1 := by
  refine ⟨by decide, by decide, by decide, by decide, by decide!⟩

/-- C14 (default configuration versus slot scheme). The default heuristic set
by `switchesInit` is 162; the four calls of `erode` leave the mask
`162 / 16 = 10 > 0`, and `computeGoalWeight` under the default configuration
fails with the error "--heuristic mode 162 is illegal" for every binding. -/
theorem default_heuristic_is_illegal (E : Env Term) (sys : System Term) (b : binding Term)
    (output : Int) :
    switchesInit_heuristic = 162 ∧
    (∀ d1 d2 d3 d4 : ℚ,
      (computeGoalWeight.erode d4 (computeGoalWeight.erode d3 (computeGoalWeight.erode d2
        (computeGoalWeight.erode d1 { w := 0, smode := switchesInit_heuristic })))).smode =
        10) ∧
    computeGoalWeight E { heuristic := switchesInit_heuristic, output := output } sys b =
      .error (.illegalHeuristicMode 162) := by
  refine ⟨rfl, ?_, ?_⟩
  · intro d1 d2 d3 d4
    simp only [computeGoalWeight.erode]
    rw [erode_residual switchesInit_heuristic (by decide)]
    decide
  · exact computeGoalWeight_illegal E
      { heuristic := switchesInit_heuristic, output := output } sys
      (show (16 : Int) ≤ switchesInit_heuristic by decide) b

end NonceAndDefault

/-! ## Counting and fetching selectable goals -/

section Random

variable {Term : Type}

theorem count_selectable_goals_loop_eq :
    ∀ (l : List (Binding Term)) (n : Nat),
      count_selectable_goals.loop l n = n + (l.filter is_goal_selectable).length := by
  intro l
  induction l with
  | nil => intro n; simp [count_selectable_goals.loop]
  | cons d next ih =>
    intro n
    rw [count_selectable_goals.loop, ih]
    by_cases h : is_goal_selectable d = true
    · simp [h]; omega
    · simp [h]

/-- What `first_selectable_goal` returns: nothing when no entry is selectable,
otherwise the suffix that starts at the first selectable entry. -/
theorem first_selectable_goal_spec :
    ∀ (l : List (Binding Term)),
      (first_selectable_goal l = [] ∧ ∀ d, d ∈ l → is_goal_selectable d = false) ∨
      (∃ pre d rest, first_selectable_goal l = d :: rest ∧ l = pre ++ d :: rest ∧
        is_goal_selectable d = true ∧ ∀ x, x ∈ pre → is_goal_selectable x = false) := by
  intro l
  induction l with
  | nil => exact Or.inl ⟨rfl, fun d hd => by simp at hd⟩
  | cons a next ih =>
    by_cases h : is_goal_selectable a = true
    · refine Or.inr ⟨[], a, next, ?_, rfl, h, fun x hx => by simp at hx⟩
      simp [first_selectable_goal, h]
    · have hf : is_goal_selectable a = false := by simpa using h
      have hstep : first_selectable_goal (a :: next) = first_selectable_goal next := by
        simp [first_selectable_goal, hf]
      rcases ih with ⟨h1, h2⟩ | ⟨pre, d, rest, h1, h2, h3, h4⟩
      · refine Or.inl ⟨by rw [hstep, h1], ?_⟩
        intro d hd
        rcases List.mem_cons.mp hd with hh | hh
        · rw [hh]; exact hf
        · exact h2 d hh
      · refine Or.inr ⟨a :: pre, d, rest, by rw [hstep, h1], by simp [h2], h3, ?_⟩
        intro x hx
        rcases List.mem_cons.mp hx with hh | hh
        · rw [hh]; exact hf
        · exact h4 x hh

theorem first_selectable_goal_of_head (d : Binding Term) (rest : List (Binding Term))
    (h : is_goal_selectable d = true) : first_selectable_goal (d :: rest) = d :: rest := by
  simp [first_selectable_goal, h]

/-- The fetch loop of `select_goal_random` stays at the first selectable entry,
however often it runs. -/
theorem select_goal_random_loop_eq (d : Binding Term) (rest : List (Binding Term))
    (hd : is_goal_selectable d = true) :
    ∀ (k : Nat) (bl : List (Binding Term)), first_selectable_goal bl = d :: rest →
      select_goal_random.loop (k + 1) bl = .ok (d :: rest) := by
  intro k
  induction k with
  | zero =>
    intro bl hbl
    rw [select_goal_random.loop, hbl]
    rfl
  | succ k ih =>
    intro bl hbl
    rw [select_goal_random.loop, hbl]
    exact ih (d :: rest) (first_selectable_goal_of_head d rest hd)

/-- With at least one selectable goal, `select_goal_random` returns the first
selectable entry of the binding set. -/
theorem select_goal_random_eq_first (sys : System Term) (r : Nat)
    (hn : 0 < count_selectable_goals sys) :
    ∃ pre b rest, sys.bindings = pre ++ some b :: rest ∧
      is_goal_selectable (some b) = true ∧
      (∀ x, x ∈ pre → is_goal_selectable x = false) ∧
      select_goal_random sys r = .ok (some b) := by
  rcases first_selectable_goal_spec sys.bindings with ⟨_, h2⟩ | ⟨pre, d, rest, h1, h2, h3, h4⟩
  · exfalso
    unfold count_selectable_goals at hn
    rw [count_selectable_goals_loop_eq] at hn
    have : sys.bindings.filter is_goal_selectable = [] := by
      apply List.filter_eq_nil_iff.mpr
      intro d hd
      rw [h2 d hd]
      simp
    rw [this] at hn
    simp at hn
  · cases d with
    | none => simp [is_goal_selectable] at h3
    | some b =>
      refine ⟨pre, b, rest, h2, h3, h4, ?_⟩
      unfold select_goal_random
      simp only [hn, if_true]
      rw [select_goal_random_loop_eq (some b) rest h3 _ sys.bindings h1]

/-- C15 (random strategy on an empty choice). When no binding is selectable
(`count_selectable_goals` is 0), `select_goal_random` returns `NULL` ("no goal")
for every value of the draw, without error. -/
theorem select_goal_random_no_goal (sys : System Term) (r : Nat)
    (h : count_selectable_goals sys = 0) : select_goal_random sys r = .ok none := by
  simp [select_goal_random, h]

/-- The set `[demoBlocked, NULL, demoDone]` has no selectable binding, and the
draw 5 yields "no goal". -/
theorem select_goal_random_no_goal_witness :
    count_selectable_goals (demoSys [some demoBlocked, none, some demoDone]) = 0 ∧
    select_goal_random (demoSys [some demoBlocked, none, some demoDone]) 5 = .ok none :=
  ⟨by decide,
    select_goal_random_no_goal (demoSys [some demoBlocked, none, some demoDone]) 5 (by decide)⟩

/-- C16 (the internal-consistency error is unreachable). With `n > 0`
selectable bindings, for every value `r` of `rand ()` (so for every draw
`r % n` in `[0, n)`) `select_goal_random` does not take the branch
"Random chooser selected a NULL goal." and returns a selectable binding that is
an entry of the binding set. -/
theorem select_goal_random_returns_goal (sys : System Term) (r : Nat)
    (hn : 0 < count_selectable_goals sys) :
    select_goal_random sys r ≠ .error .randomNullGoal ∧
    ∃ b, select_goal_random sys r = .ok (some b) ∧ some b ∈ sys.bindings ∧
      is_goal_selectable (some b) = true := by
  obtain ⟨pre, b, rest, h1, h2, _, h4⟩ := select_goal_random_eq_first sys r hn
  refine ⟨?_, b, h4, ?_, h2⟩
  · rw [h4]
    intro h
    cases h
  · rw [h1]
    simp

/-- The set `[demoBlocked, demoB1, demoB2]` has two selectable bindings, and
the draw 1 yields a selectable entry of the set without error. -/
theorem select_goal_random_returns_goal_witness :
    select_goal_random (demoSys [some demoBlocked, some demoB1, some demoB2]) 1 ≠
      .error .randomNullGoal ∧
    ∃ b, select_goal_random (demoSys [some demoBlocked, some demoB1, some demoB2]) 1 =
        .ok (some b) ∧
      some b ∈ (demoSys [some demoBlocked, some demoB1, some demoB2]).bindings ∧
      is_goal_selectable (some b) = true :=
  select_goal_random_returns_goal (demoSys [some demoBlocked, some demoB1, some demoB2]) 1
    (by decide)

end Random

/-! ## Diagnostics, end-to-end scenarios and the hide-level weight -/

section Scenarios

variable {Term : Type}

/-- The result of the loop of `select_goal_masked` depends neither on the
output mode nor on the output written so far. -/
theorem masked_loop_fst_indep (E : Env Term) (sys : System Term) (h o1 o2 : Int) :
    ∀ (l : List (Binding Term)) (bw : ℚ) (best : Binding Term) (out1 out2 : List (Out Term)),
      (select_goal_masked.loop E { heuristic := h, output := o1 } sys l bw best out1).1 =
        (select_goal_masked.loop E { heuristic := h, output := o2 } sys l bw best out2).1 := by
  intro l
  induction l with
  | nil => intro bw best out1 out2; rfl
  | cons d next ih =>
    intro bw best out1 out2
    cases d with
    | none =>
      rw [masked_loop_none, masked_loop_none]
      exact ih bw best out1 out2
    | some a =>
      by_cases ha : IsCandidate E a
      · have hsame : computeGoalWeight E { heuristic := h, output := o1 } sys a =
            computeGoalWeight E { heuristic := h, output := o2 } sys a := rfl
        cases hw : computeGoalWeight E { heuristic := h, output := o1 } sys a with
        | error e =>
          rw [masked_loop_error E _ sys a ha e hw,
            masked_loop_error E _ sys a ha e (hsame ▸ hw)]
        | ok w =>
          by_cases hle : w ≤ bw
          · obtain ⟨x1, e1⟩ := masked_loop_take E { heuristic := h, output := o1 } sys a ha w hw
              next bw hle best out1
            obtain ⟨x2, e2⟩ := masked_loop_take E { heuristic := h, output := o2 } sys a ha w
              (hsame ▸ hw) next bw hle best out2
            rw [e1, e2]
            exact ih w (some a) x1 x2
          · obtain ⟨x1, e1⟩ := masked_loop_keep E { heuristic := h, output := o1 } sys a ha w hw
              next bw (not_le.mp hle) best out1
            obtain ⟨x2, e2⟩ := masked_loop_keep E { heuristic := h, output := o2 } sys a ha w
              (hsame ▸ hw) next bw (not_le.mp hle) best out2
            rw [e1, e2]
            exact ih bw best x1 x2
      · rw [masked_loop_skip E _ sys a ha, masked_loop_skip E _ sys a ha]
        exact ih bw best out1 out2

/-- C17 (diagnostics are observational only). For every system and mask, the
binding returned by `select_goal_masked`, or the error it raises, is the same
under any two output modes, `PROOF` or not: the output mode only changes what
is printed. -/
theorem select_goal_masked_output_indep (E : Env Term) (sys : System Term)
    (heuristic output1 output2 : Int) :
    (select_goal_masked E { heuristic := heuristic, output := output1 } sys).1 =
      (select_goal_masked E { heuristic := heuristic, output := output2 } sys).1 := by
  rw [select_goal_masked_fst, select_goal_masked_fst]
  exact masked_loop_fst_indep E sys heuristic output1 output2 sys.bindings FLT_MAX none _ _

/-- C18 (no slots enabled). With the heuristic 0 every binding weighs 0, and
`select_goal_masked` returns the last binding in list order among the
selectable bindings whose term is not a variable; for a set `[b0, b1]` whose
`b1` is such a binding (for instance `b0` a variable of level 0 and `b1` a
constant of level 1) it returns `b1`. -/
theorem select_goal_masked_mask_zero (E : Env Term) (sys : System Term) (output : Int) :
    (∀ b, computeGoalWeight E { heuristic := 0, output := output } sys b = .ok 0) ∧
    (∀ pre b post, sys.bindings = pre ++ some b :: post → IsCandidate E b →
      (∀ c, some c ∈ post → ¬ IsCandidate E c) →
      (select_goal_masked E { heuristic := 0, output := output } sys).1 = .ok (some b)) ∧
    (∀ b0 b1, sys.bindings = [some b0, some b1] → IsCandidate E b1 →
      (select_goal_masked E { heuristic := 0, output := output } sys).1 = .ok (some b1)) := by
  have hW : ∀ b, computeGoalWeight E { heuristic := 0, output := output } sys b =
      .ok ((fun _ => (0 : ℚ)) b) := by
    intro b
    simp [computeGoalWeight, computeGoalWeight.erode, Int.tdiv]
  have hlast : ∀ pre b post, sys.bindings = pre ++ some b :: post → IsCandidate E b →
      (∀ c, some c ∈ post → ¬ IsCandidate E c) →
      (select_goal_masked E { heuristic := 0, output := output } sys).1 = .ok (some b) := by
    intro pre b post hsplit hb hpost
    rw [select_goal_masked_fst, hsplit]
    exact masked_loop_last E _ sys (fun _ => (0 : ℚ)) hW b hb post
      (fun c hc hcand => absurd hcand (hpost c hc)) pre FLT_MAX none _
      (by norm_num [FLT_MAX]) (fun _ _ _ => le_refl _)
  refine ⟨hW, hlast, ?_⟩
  intro b0 b1 hsplit hb1
  exact hlast [some b0] b1 [] hsplit hb1 (fun c hc => by simp at hc)

/-- With the heuristic 0 the set `[demoB0, demoB1]` (a variable of level 0,
then a constant of level 1) yields `demoB1`, and `demoB0` weighs 0. -/
theorem select_goal_masked_mask_zero_witness :
    computeGoalWeight demoEnv { heuristic := 0, output := 5 }
      (demoSys [some demoB0, some demoB1]) demoB0 = .ok 0 ∧
    (select_goal_masked demoEnv { heuristic := 0, output := 5 }
      (demoSys [some demoB0, some demoB1])).1 = .ok (some demoB1) :=
  ⟨(select_goal_masked_mask_zero demoEnv (demoSys [some demoB0, some demoB1]) 5).1 demoB0,
   (select_goal_masked_mask_zero demoEnv (demoSys [some demoB0, some demoB1]) 5).2.2
      demoB0 demoB1 rfl ⟨by decide, by decide⟩⟩

/-- C19 (key-level-only configuration). With the heuristic 2 the weight of a
binding `b` is `0.5 * (1 - b.level)`: 0.5 at level 0 and 0 at level 1; and for
a set `[b0, b1]` with `b0` of level 0 and `b1` a selectable binding of level 1
whose term is not a variable (for instance `b0` a nonce variable and `b1` a
constant) `select_goal_masked` returns `b1`. -/
theorem select_goal_masked_key_level_only (E : Env Term) (sys : System Term) (output : Int) :
    (∀ b, computeGoalWeight E { heuristic := 2, output := output } sys b =
      .ok ((1 / 2) * (1 - (b.level : ℚ)))) ∧
    (∀ b, b.level = 0 →
      computeGoalWeight E { heuristic := 2, output := output } sys b = .ok (1 / 2)) ∧
    (∀ b, b.level = 1 →
      computeGoalWeight E { heuristic := 2, output := output } sys b = .ok 0) ∧
    (∀ b0 b1, sys.bindings = [some b0, some b1] → b0.level = 0 → b1.level = 1 →
      IsCandidate E b1 →
      (select_goal_masked E { heuristic := 2, output := output } sys).1 = .ok (some b1)) := by
  have hW : ∀ b, computeGoalWeight E { heuristic := 2, output := output } sys b =
      .ok ((fun c : binding Term => (1 / 2) * (1 - (c.level : ℚ))) b) := by
    intro b
    simp [computeGoalWeight, computeGoalWeight.erode, Int.tdiv]
  refine ⟨hW, ?_, ?_, ?_⟩
  · intro b hb
    rw [hW b]
    simp [hb]
  · intro b hb
    rw [hW b]
    simp [hb]
  · intro b0 b1 hsplit h0 h1 hb1
    rw [select_goal_masked_fst, hsplit]
    exact masked_loop_last E _ sys _ hW b1 hb1 []
      (fun c hc => by simp at hc) [some b0] FLT_MAX none _
      (by simp only [h1]; norm_num [FLT_MAX])
      (fun c hc _ => by
        have hc0 : c = b0 := by simpa using hc
        subst hc0
        simp only [h0, h1]
        norm_num)

/-- With the heuristic 2 the set `[demoB0, demoB1]` (a variable of level 0,
then a constant of level 1) yields `demoB1`; `demoB0` weighs 0.5 and `demoB1`
weighs 0. -/
theorem select_goal_masked_key_level_only_witness :
    computeGoalWeight demoEnv { heuristic := 2, output := 0 }
      (demoSys [some demoB0, some demoB1]) demoB0 = .ok (1 / 2) ∧
    computeGoalWeight demoEnv { heuristic := 2, output := 0 }
      (demoSys [some demoB0, some demoB1]) demoB1 = .ok 0 ∧
    (select_goal_masked demoEnv { heuristic := 2, output := 0 }
      (demoSys [some demoB0, some demoB1])).1 = .ok (some demoB1) :=
  ⟨(select_goal_masked_key_level_only demoEnv (demoSys [some demoB0, some demoB1]) 0).2.1
      demoB0 rfl,
   (select_goal_masked_key_level_only demoEnv (demoSys [some demoB0, some demoB1]) 0).2.2.1
      demoB1 rfl,
   (select_goal_masked_key_level_only demoEnv (demoSys [some demoB0, some demoB1]) 0).2.2.2
      demoB0 demoB1 rfl rfl rfl ⟨by decide, by decide⟩⟩

/-- C20 (knowledge-classification mapping). With the three flag constants
pairwise distinct (they label the cases of one `switch`), `weighHidelevel`
returns 0 when `hidelevelFlag` is `HLFLAG_NONE`, `massknow` when it is
`HLFLAG_KNOW`, `massprot` when it is `HLFLAG_PROT`, and 1 for any other flag. -/
theorem weighHidelevel_mapping (E : Env Term) (sys : System Term) (t : Term)
    (massknow massprot : ℚ)
    (hNK : E.HLFLAG_NONE ≠ E.HLFLAG_KNOW) (hNP : E.HLFLAG_NONE ≠ E.HLFLAG_PROT)
    (hKP : E.HLFLAG_KNOW ≠ E.HLFLAG_PROT) :
    (E.hidelevelFlag sys t = E.HLFLAG_NONE → weighHidelevel E sys t massknow massprot = 0) ∧
    (E.hidelevelFlag sys t = E.HLFLAG_KNOW →
      weighHidelevel E sys t massknow massprot = massknow) ∧
    (E.hidelevelFlag sys t = E.HLFLAG_PROT →
      weighHidelevel E sys t massknow massprot = massprot) ∧
    (E.hidelevelFlag sys t ≠ E.HLFLAG_NONE → E.hidelevelFlag sys t ≠ E.HLFLAG_KNOW →
      E.hidelevelFlag sys t ≠ E.HLFLAG_PROT →
      weighHidelevel E sys t massknow massprot = 1) := by
  refine ⟨?_, ?_, ?_, ?_⟩
  · intro h
    simp [weighHidelevel, h]
  · intro h
    simp [weighHidelevel, h, Ne.symm hNK]
  · intro h
    simp [weighHidelevel, h, Ne.symm hNP, Ne.symm hKP]
  · intro h1 h2 h3
    simp [weighHidelevel, h1, h2, h3]

/-- In `flagEnv` the constants `const 0`, `const 1`, `const 2` and `const 3`
carry the flags `HLFLAG_NONE`, `HLFLAG_KNOW`, `HLFLAG_PROT` and an unknown
flag: with `massknow = 1/3` and `massprot = 1/4` they weigh 0, 1/3, 1/4 and 1. -/
theorem weighHidelevel_mapping_witness :
    weighHidelevel flagEnv (demoSys []) (DemoTerm.const 0) (1 / 3) (1 / 4) = 0 ∧
    weighHidelevel flagEnv (demoSys []) (DemoTerm.const 1) (1 / 3) (1 / 4) = 1 / 3 ∧
    weighHidelevel flagEnv (demoSys []) (DemoTerm.const 2) (1 / 3) (1 / 4) = 1 / 4 ∧
    weighHidelevel flagEnv (demoSys []) (DemoTerm.const 3) (1 / 3) (1 / 4) = 1 :=
  ⟨(weighHidelevel_mapping flagEnv (demoSys []) (DemoTerm.const 0) (1 / 3) (1 / 4)
      (by decide) (by decide) (by decide)).1 rfl,
   (weighHidelevel_mapping flagEnv (demoSys []) (DemoTerm.const 1) (1 / 3) (1 / 4)
      (by decide) (by decide) (by decide)).2.1 rfl,
   (weighHidelevel_mapping flagEnv (demoSys []) (DemoTerm.const 2) (1 / 3) (1 / 4)
      (by decide) (by decide) (by decide)).2.2.1 rfl,
   (weighHidelevel_mapping flagEnv (demoSys []) (DemoTerm.const 3) (1 / 3) (1 / 4)
      (by decide) (by decide) (by decide)).2.2.2 (by decide) (by decide) (by decide)⟩

end Scenarios

/-! ## Selectability, counting and the first selectable goal -/

section Enumeration

variable {Term : Type}

/-- C24 (selectability). A binding that is not `NULL` is selectable if and
only if it is neither blocked nor done; a `NULL` binding is not selectable. -/
theorem is_goal_selectable_iff (b : binding Term) :
    (is_goal_selectable (some b) = true ↔ b.blocked = false ∧ b.done = false) ∧
    is_goal_selectable (none : Binding Term) = false := by
  refine ⟨?_, rfl⟩
  cases hb : b.blocked <;> cases hd : b.done <;> simp [is_goal_selectable, hb, hd]

/-- C22 (count consistency). `count_selectable_goals` is the number of entries
of the binding set that are selectable: the length of the set filtered by
`is_goal_selectable`. -/
theorem count_selectable_goals_eq_filter_length (sys : System Term) :
    count_selectable_goals sys = (sys.bindings.filter is_goal_selectable).length := by
  unfold count_selectable_goals
  rw [count_selectable_goals_loop_eq, Nat.zero_add]

/-- C23 (first selectable). For a list position `bl`, `first_selectable_goal`
returns either `NULL`, or a suffix of `bl` whose head is selectable and before
which every entry of `bl` is not selectable; it returns `NULL` exactly when no
entry from `bl` onward is selectable; and it returns `bl` itself when the head
of `bl` is selectable. -/
theorem first_selectable_goal_correct (bl : List (Binding Term)) :
    (first_selectable_goal bl = [] ∨
      ∃ pre d rest, first_selectable_goal bl = d :: rest ∧ bl = pre ++ d :: rest ∧
        is_goal_selectable d = true ∧ ∀ x, x ∈ pre → is_goal_selectable x = false) ∧
    (first_selectable_goal bl = [] ↔ ∀ d, d ∈ bl → is_goal_selectable d = false) ∧
    (∀ d rest, bl = d :: rest → is_goal_selectable d = true →
      first_selectable_goal bl = bl) := by
  refine ⟨?_, ?_, ?_⟩
  · rcases first_selectable_goal_spec bl with ⟨h1, _⟩ | h
    · exact Or.inl h1
    · exact Or.inr h
  · constructor
    · intro hnil
      rcases first_selectable_goal_spec bl with ⟨_, h2⟩ | ⟨pre, d, rest, h1, _, _, _⟩
      · exact h2
      · rw [hnil] at h1
        cases h1
    · intro hall
      rcases first_selectable_goal_spec bl with ⟨h1, _⟩ | ⟨pre, d, rest, _, h2, h3, _⟩
      · exact h1
      · have hmem : d ∈ bl := by rw [h2]; simp
        rw [hall d hmem] at h3
        cases h3
  · intro d rest hbl hd
    rw [hbl]
    exact first_selectable_goal_of_head d rest hd

/-- From `[demoBlocked, NULL, demoB1, demoDone]` the first selectable goal is
the suffix `[demoB1, demoDone]`; from `[demoB1, demoDone]` it is the list
itself; from `[demoBlocked, demoDone]` it is `NULL`. -/
theorem first_selectable_goal_correct_witness :
    first_selectable_goal [some demoBlocked, none, some demoB1, some demoDone] =
      [some demoB1, some demoDone] ∧
    first_selectable_goal [some demoB1, some demoDone] = [some demoB1, some demoDone] ∧
    first_selectable_goal [some demoBlocked, some demoDone] = [] :=
  ⟨by decide,
   (first_selectable_goal_correct [some demoB1, some demoDone]).2.2
      (some demoB1) [some demoDone] rfl (by decide),
   (first_selectable_goal_correct [some demoBlocked, some demoDone]).2.1.mpr (by
      intro d hd
      simp only [List.mem_cons, List.mem_singleton] at hd
      rcases hd with rfl | rfl | hd
      · decide
      · decide
      · simp at hd)⟩

/-- With at least one selectable goal, `select_goal_random` returns the first
selectable entry of the binding set for every value of `rand ()`. -/
theorem select_goal_random_all_draws (sys : System Term)
    (hn : 0 < count_selectable_goals sys) :
    ∃ pre b rest, sys.bindings = pre ++ some b :: rest ∧
      is_goal_selectable (some b) = true ∧
      (∀ x, x ∈ pre → is_goal_selectable x = false) ∧
      ∀ r, select_goal_random sys r = .ok (some b) := by
  rcases first_selectable_goal_spec sys.bindings with ⟨_, h2⟩ | ⟨pre, d, rest, h1, h2, h3, h4⟩
  · exfalso
    unfold count_selectable_goals at hn
    rw [count_selectable_goals_loop_eq] at hn
    have : sys.bindings.filter is_goal_selectable = [] := by
      apply List.filter_eq_nil_iff.mpr
      intro d hd
      rw [h2 d hd]
      simp
    rw [this] at hn
    simp at hn
  · cases d with
    | none => simp [is_goal_selectable] at h3
    | some b =>
      refine ⟨pre, b, rest, h2, h3, h4, ?_⟩
      intro r
      unfold select_goal_random
      simp only [hn, if_true]
      rw [select_goal_random_loop_eq (some b) rest h3 _ sys.bindings h1]

/-- C25 (the random strategy ignores the draw). With at least one selectable
binding, `select_goal_random` returns the same binding for any two values of
`rand ()`, namely the first selectable binding in list order. -/
theorem select_goal_random_draw_indep (sys : System Term) (r1 r2 : Nat)
    (hn : 0 < count_selectable_goals sys) :
    select_goal_random sys r1 = select_goal_random sys r2 ∧
    ∃ pre b rest, sys.bindings = pre ++ some b :: rest ∧
      is_goal_selectable (some b) = true ∧
      (∀ x, x ∈ pre → is_goal_selectable x = false) ∧
      select_goal_random sys r1 = .ok (some b) := by
  obtain ⟨pre, b, rest, h1, h2, h3, h4⟩ := select_goal_random_all_draws sys hn
  exact ⟨by rw [h4 r1, h4 r2], pre, b, rest, h1, h2, h3, h4 r1⟩

/-- The set `[demoBlocked, demoB1, demoB2]` has two selectable bindings; the
draws 0 and 1 both yield `demoB1`, the first of them. -/
theorem select_goal_random_draw_indep_witness :
    select_goal_random (demoSys [some demoBlocked, some demoB1, some demoB2]) 0 =
      select_goal_random (demoSys [some demoBlocked, some demoB1, some demoB2]) 1 ∧
    select_goal_random (demoSys [some demoBlocked, some demoB1, some demoB2]) 0 =
      .ok (some demoB1) :=
  ⟨(select_goal_random_draw_indep (demoSys [some demoBlocked, some demoB1, some demoB2]) 0 1
      (by decide)).1, by decide⟩

end Enumeration

/-! ## The nonce-variable metric and the range of the weight -/

section Range

variable {Term : Type}

theorem count_open_variables_eq_zero (E : Env Term) (t : Term) :
    count_open_variables E t = 0 := rfl

/-- C21 (truncating interpolation in the nonce-variable metric).
`term_noncevariables_level` is the function `ofCount` of the count `onv`
returned by `count_open_variables`; that function yields 0 when `onv ≥ 2` and
`1 - onv / 2` with the truncating division of integers otherwise, which is 1
for `onv = 0` and for `onv = 1`; for a count (`onv ≥ 0`) the result lies in
`[0, 1]`, and in `(0, 1]` when `onv < 2`. -/
theorem term_noncevariables_level_truncates (E : Env Term) (t : Term) (onv : Int) :
    term_noncevariables_level E t =
      term_noncevariables_level.ofCount (count_open_variables E t) ∧
    (2 ≤ onv → term_noncevariables_level.ofCount onv = 0) ∧
    (onv < 2 → term_noncevariables_level.ofCount onv = ((1 - Int.tdiv onv 2 : Int) : ℚ)) ∧
    term_noncevariables_level.ofCount 0 = 1 ∧
    term_noncevariables_level.ofCount 1 = 1 ∧
    (0 ≤ onv → 0 ≤ term_noncevariables_level.ofCount onv ∧
      term_noncevariables_level.ofCount onv ≤ 1) ∧
    (0 ≤ onv → onv < 2 → 0 < term_noncevariables_level.ofCount onv ∧
      term_noncevariables_level.ofCount onv ≤ 1) := by
  have hlow : ∀ k : Int, 0 ≤ k → k < 2 → term_noncevariables_level.ofCount k = 1 := by
    intro k hk0 hk2
    have hk : k = 0 ∨ k = 1 := by omega
    rcases hk with hk | hk <;> subst hk <;>
      simp [term_noncevariables_level.ofCount, Int.tdiv]
  have hhigh : ∀ k : Int, 2 ≤ k → term_noncevariables_level.ofCount k = 0 := by
    intro k hk
    simp [term_noncevariables_level.ofCount, hk]
  refine ⟨rfl, hhigh onv, ?_, hlow 0 (by decide) (by decide), hlow 1 (by decide) (by decide),
    ?_, ?_⟩
  · intro h
    have hn : ¬ onv ≥ 2 := by omega
    simp [term_noncevariables_level.ofCount, hn]
  · intro h0
    by_cases h2 : 2 ≤ onv
    · rw [hhigh onv h2]
      exact ⟨le_refl _, zero_le_one⟩
    · rw [hlow onv h0 (by omega)]
      exact ⟨zero_le_one, le_refl _⟩
  · intro h0 h2
    rw [hlow onv h0 h2]
    exact ⟨zero_lt_one, le_refl _⟩

/-- The function of the count at 0, 1, 2 and 3: the values 1, 1, 0 and 0. -/
theorem term_noncevariables_level_truncates_witness :
    term_noncevariables_level.ofCount 0 = ((1 - Int.tdiv 0 2 : Int) : ℚ) ∧
    (0 < term_noncevariables_level.ofCount 1 ∧ term_noncevariables_level.ofCount 1 ≤ 1) ∧
    term_noncevariables_level.ofCount 2 = 0 ∧
    (0 ≤ term_noncevariables_level.ofCount 3 ∧ term_noncevariables_level.ofCount 3 ≤ 1) :=
  ⟨(term_noncevariables_level_truncates demoEnv (DemoTerm.var 0) 0).2.2.1 (by decide),
   (term_noncevariables_level_truncates demoEnv (DemoTerm.var 0) 1).2.2.2.2.2.2
      (by decide) (by decide),
   (term_noncevariables_level_truncates demoEnv (DemoTerm.var 0) 2).2.1 (by decide),
   (term_noncevariables_level_truncates demoEnv (DemoTerm.var 0) 3).2.2.2.2.2.1 (by decide)⟩

/-- C26 (the nonce-variable metric is constant). `count_open_variables`
returns 0 for every term, because the list built by `termlistAddVariables` is
not assigned and the counting loop runs over `NULL`; hence
`term_noncevariables_level` returns 1 for every term, and slot 3 of the weight
(the whole weight under the mask 8) is 1 for every binding. -/
theorem count_open_variables_is_zero (E : Env Term) (sys : System Term) (t : Term)
    (b : binding Term) (output : Int) :
    count_open_variables E t = 0 ∧
    term_noncevariables_level E t = 1 ∧
    computeGoalWeight E { heuristic := 8, output := output } sys b = .ok 1 := by
  refine ⟨rfl, ?_, ?_⟩
  · simp [term_noncevariables_level, count_open_variables, count_open_variables.loop, Int.tdiv]
  · simp [computeGoalWeight, computeGoalWeight.erode, Int.tdiv, term_noncevariables_level,
      count_open_variables, count_open_variables.loop]

end Range

end Scyther
